import Mathlib

/-!
# Verification of the x402-rs payment protocol library

Shallow embedding of the core of `x402-rs` (envelope codec, the exact/EVM
payment scheme, the facilitator service, and the client helper) together
with proofs about the embedded definitions.

Modelling conventions:
* Rust `String` is Lean `String`; byte sequences are `List Nat` with each
  element `< 256`.
* `serde_json::Value` is the inductive `X402.Json` (numbers restricted to
  integers; floating-point JSON numbers are outside the model).
* Machine integers (`U256`, `u64`, `u32`, `u8`) are `Nat`/`Int` with
  explicit bounds or `% 2 ^ w` where overflow matters.
* Network, clock and cryptographic effects (RPC results, `now`, keccak
  hashing, secp256k1 signing and recovery) are supplied as explicit
  environment records; the pure control flow around them is translated
  from the source.
-/

namespace X402

/-- Model of `serde_json::Value` with integral numbers.  Objects are the
key/value sequence of the underlying map. -/
inductive Json where
  | null : Json
  | bool (b : Bool) : Json
  | num (n : Int) : Json
  | str (s : String) : Json
  | arr (xs : List Json) : Json
  | obj (kvs : List (String × Json)) : Json
deriving Inhabited

/-! ## Decimal numerals -/

/-- Big-endian decimal digit characters of `n`, as `serde_json` and
`U256::to_string` print it. -/
def natChars (n : Nat) : List Char :=
  if n = 0 then ['0']
  else (Nat.digits 10 n).reverse.map fun d => Char.ofNat (48 + d)

/-- Big-endian decimal characters of an integer (minus sign for negatives). -/
def intChars (n : Int) : List Char :=
  if n < 0 then '-' :: natChars n.natAbs else natChars n.toNat

/-- Numeric value of a big-endian decimal digit-character list. -/
def digitsToNat (ds : List Char) : Nat :=
  ds.foldl (fun acc c => acc * 10 + (c.toNat - 48)) 0

theorem isValidChar_of_lt_d800 {n : Nat} (h : n < 0xd800) : n.isValidChar :=
  Or.inl h

theorem Char_toNat_ofNat_valid {n : Nat} (h : n.isValidChar) :
    (Char.ofNat n).toNat = n := by
  simp only [Char.ofNat, h, Char.toNat, Char.ofNatAux, dite_true, dif_pos]
  rfl

/-- The digit test `serde_json`'s number parser applies to a byte
(`b'0' ..= b'9'`), expressed on characters. -/
def isDigitChar (c : Char) : Bool :=
  decide (48 ≤ c.toNat ∧ c.toNat ≤ 57)

theorem digit_char_toNat {d : Nat} (h : d < 10) :
    (Char.ofNat (48 + d)).toNat = 48 + d := by
  apply Char_toNat_ofNat_valid
  exact isValidChar_of_lt_d800 (by omega)

theorem digit_char_isDigit {d : Nat} (h : d < 10) :
    isDigitChar (Char.ofNat (48 + d)) = true := by
  simp only [isDigitChar, digit_char_toNat h, decide_eq_true_eq]
  omega

theorem natChars_ne_nil (n : Nat) : natChars n ≠ [] := by
  unfold natChars
  split
  · simp
  · next h =>
    have := (@Nat.digits_ne_nil_iff_ne_zero 10 n).mpr h
    simp_all

theorem natChars_all_digits (n : Nat) :
    ∀ c ∈ natChars n, isDigitChar c = true := by
  intro c hc
  unfold natChars at hc
  split at hc
  · simp at hc
    subst hc
    simp [isDigitChar]
  · simp only [List.mem_map, List.mem_reverse] at hc
    obtain ⟨d, hd, rfl⟩ := hc
    exact digit_char_isDigit (Nat.digits_lt_base (by omega) hd)

theorem digitsToNat_natChars (n : Nat) : digitsToNat (natChars n) = n := by
  unfold natChars
  split
  · subst n; decide
  · next h =>
    unfold digitsToNat
    have key : ∀ l : List Nat, (∀ d ∈ l, d < 10) → ∀ acc : Nat,
        (l.reverse.map fun d => Char.ofNat (48 + d)).foldl
          (fun acc c => acc * 10 + (c.toNat - 48)) acc
          = acc * 10 ^ l.length + Nat.ofDigits 10 l := by
      intro l
      induction l with
      | nil => intro _ acc; simp [Nat.ofDigits]
      | cons d t ih =>
        intro hlt acc
        have hd : d < 10 := hlt d (List.mem_cons_self d t)
        simp only [List.reverse_cons, List.map_append, List.map_cons,
          List.map_nil, List.foldl_append, List.foldl_cons, List.foldl_nil]
        rw [ih (fun x hx => hlt x (List.mem_cons_of_mem _ hx)) acc]
        rw [digit_char_toNat hd]
        simp only [Nat.ofDigits_cons, List.length_cons]
        ring_nf
        omega
    rw [key (Nat.digits 10 n) (fun d hd => Nat.digits_lt_base (by omega) hd) 0]
    simp [Nat.ofDigits_digits]

/-! ## String escaping (as in `serde_json`'s compact serializer) -/

/-- Lowercase hexadecimal digit character. -/
def hexDigitChar (n : Nat) : Char :=
  if n < 10 then Char.ofNat (48 + n) else Char.ofNat (87 + n)

/-- Value of a hexadecimal digit character (either case). -/
def hexCharVal (c : Char) : Option Nat :=
  if 48 ≤ c.toNat ∧ c.toNat ≤ 57 then some (c.toNat - 48)
  else if 97 ≤ c.toNat ∧ c.toNat ≤ 102 then some (c.toNat - 87)
  else if 65 ≤ c.toNat ∧ c.toNat ≤ 70 then some (c.toNat - 55)
  else none

theorem hexCharVal_hexDigitChar {n : Nat} (h : n < 16) :
    hexCharVal (hexDigitChar n) = some n := by
  unfold hexDigitChar hexCharVal
  by_cases h10 : n < 10
  · have hv : (Char.ofNat (48 + n)).toNat = 48 + n :=
      Char_toNat_ofNat_valid (isValidChar_of_lt_d800 (by omega))
    simp only [h10, if_true, hv]
    rw [if_pos (by omega)]
    congr 1
    omega
  · have hv : (Char.ofNat (87 + n)).toNat = 87 + n :=
      Char_toNat_ofNat_valid (isValidChar_of_lt_d800 (by omega))
    simp only [h10, if_false, hv]
    rw [if_neg (by omega), if_pos (by omega)]
    congr 1
    omega

/-- Escape a single character the way `serde_json` does: `"` and `\`
escaped, control characters as `\b \t \n \f \r` or `\u00XX`, everything
else verbatim. -/
def escChar (c : Char) : List Char :=
  if c = '"' then ['\\', '"']
  else if c = '\\' then ['\\', '\\']
  else if c.toNat < 0x20 then
    if c.toNat = 8 then ['\\', 'b']
    else if c.toNat = 9 then ['\\', 't']
    else if c.toNat = 10 then ['\\', 'n']
    else if c.toNat = 12 then ['\\', 'f']
    else if c.toNat = 13 then ['\\', 'r']
    else ['\\', 'u', '0', '0', hexDigitChar (c.toNat / 16), hexDigitChar (c.toNat % 16)]
  else [c]

/-- Escape a character sequence. -/
def escList : List Char → List Char
  | [] => []
  | c :: cs => escChar c ++ escList cs

/-! ## JSON serialization (compact, as `serde_json::to_string`) -/

mutual

/-- Compact serialization of a `Json` value, mirroring
`serde_json::to_string`. -/
def jsonSerialize : Json → List Char
  | .num n => intChars n
  | .null => ['n', 'u', 'l', 'l']
  | .bool false => ['f', 'a', 'l', 's', 'e']
  | .bool true => ['t', 'r', 'u', 'e']
  | .str s => '"' :: (escList s.data ++ ['"'])
  | .arr [] => ['[', ']']
  | .arr (x :: xs) => '[' :: (serElems x xs ++ [']'])
  | .obj [] => ['{', '}']
  | .obj (kv :: kvs) => '{' :: (serMembers kv kvs ++ ['}'])
termination_by v => sizeOf v

/-- Comma-separated serialization of a nonempty array tail. -/
def serElems : Json → List Json → List Char
  | x, [] => jsonSerialize x
  | x, y :: ys => jsonSerialize x ++ ',' :: serElems y ys
termination_by x xs => sizeOf x + sizeOf xs

/-- Comma-separated serialization of a nonempty object member list. -/
def serMembers : String × Json → List (String × Json) → List Char
  | (k, v), [] => '"' :: (escList k.data ++ '"' :: ':' :: jsonSerialize v)
  | (k, v), kv :: kvs =>
      ('"' :: (escList k.data ++ '"' :: ':' :: jsonSerialize v)) ++ ',' :: serMembers kv kvs
termination_by kv kvs => sizeOf kv + sizeOf kvs

end

/-! ## JSON parsing (the subset of `serde_json::from_str` the codec needs;
whitespace-free compact inputs, integral numbers) -/

/-- Parse a nonempty run of decimal digits greedily. -/
def parseNat (cs : List Char) : Option (Nat × List Char) :=
  let ds := cs.takeWhile isDigitChar
  if ds.isEmpty then none
  else some (digitsToNat ds, cs.dropWhile isDigitChar)

/-- Decode the character following a backslash in a JSON string literal,
returning the decoded character and the remaining input. -/
def escDecode (e : Char) (rest : List Char) : Option (Char × List Char) :=
  if e = '"' then some ('"', rest)
  else if e = '\\' then some ('\\', rest)
  else if e = '/' then some ('/', rest)
  else if e = 'b' then some (Char.ofNat 8, rest)
  else if e = 't' then some (Char.ofNat 9, rest)
  else if e = 'n' then some (Char.ofNat 10, rest)
  else if e = 'f' then some (Char.ofNat 12, rest)
  else if e = 'r' then some (Char.ofNat 13, rest)
  else if e = 'u' then
    match rest with
    | h1 :: h2 :: h3 :: h4 :: rest' =>
      match hexCharVal h1, hexCharVal h2, hexCharVal h3, hexCharVal h4 with
      | some a, some b, some c, some d =>
        let v := a * 4096 + b * 256 + c * 16 + d
        if v.isValidChar then some (Char.ofNat v, rest') else none
      | _, _, _, _ => none
    | _ => none
  else none

/-- Parse the body of a JSON string literal (after the opening quote) up to
and including the closing quote. -/
def parseStrAux : Nat → List Char → Option (List Char × List Char)
  | 0, _ => none
  | _ + 1, [] => none
  | fuel + 1, c :: rest =>
    if c = '"' then some ([], rest)
    else if c = '\\' then
      match rest with
      | [] => none
      | e :: rest' =>
        match escDecode e rest' with
        | none => none
        | some (d, rest'') =>
          match parseStrAux fuel rest'' with
          | none => none
          | some (s, r) => some (d :: s, r)
    else
      match parseStrAux fuel rest with
      | none => none
      | some (s, r) => some (c :: s, r)

mutual

/-- Fuel-indexed recursive-descent parser for compact JSON values. -/
def parseVal : Nat → List Char → Option (Json × List Char)
  | 0, _ => none
  | _ + 1, [] => none
  | fuel + 1, c :: rest =>
    if c = 'n' then
      match rest with
      | 'u' :: 'l' :: 'l' :: r => some (.null, r)
      | _ => none
    else if c = 't' then
      match rest with
      | 'r' :: 'u' :: 'e' :: r => some (.bool true, r)
      | _ => none
    else if c = 'f' then
      match rest with
      | 'a' :: 'l' :: 's' :: 'e' :: r => some (.bool false, r)
      | _ => none
    else if c = '"' then
      match parseStrAux (fuel + 1) rest with
      | none => none
      | some (s, r) => some (.str (String.mk s), r)
    else if c = '[' then
      if rest.head? = some ']' then some (.arr [], rest.tail)
      else
        match parseElems fuel rest with
        | none => none
        | some (xs, r) => some (.arr xs, r)
    else if c = '{' then
      if rest.head? = some '}' then some (.obj [], rest.tail)
      else
        match parseMembers fuel rest with
        | none => none
        | some (kvs, r) => some (.obj kvs, r)
    else if c = '-' then
      match parseNat rest with
      | none => none
      | some (n, r) => some (.num (-(n : Int)), r)
    else if isDigitChar c then
      match parseNat (c :: rest) with
      | none => none
      | some (n, r) => some (.num (n : Int), r)
    else none

/-- Parse the elements of a nonempty JSON array (after `[`), up to and
including the closing `]`. -/
def parseElems : Nat → List Char → Option (List Json × List Char)
  | 0, _ => none
  | fuel + 1, cs =>
    match parseVal fuel cs with
    | none => none
    | some (v, r) =>
      match r with
      | ',' :: r' =>
        match parseElems fuel r' with
        | none => none
        | some (vs, r'') => some (v :: vs, r'')
      | ']' :: r' => some ([v], r')
      | _ => none

/-- Parse the members of a nonempty JSON object (after `{`), up to and
including the closing `}`. -/
def parseMembers : Nat → List Char → Option (List (String × Json) × List Char)
  | 0, _ => none
  | fuel + 1, cs =>
    match cs with
    | '"' :: cs' =>
      match parseStrAux (fuel + 1) cs' with
      | none => none
      | some (k, r) =>
        match r with
        | ':' :: r' =>
          match parseVal fuel r' with
          | none => none
          | some (v, r'') =>
            match r'' with
            | ',' :: r3 =>
              match parseMembers fuel r3 with
              | none => none
              | some (kvs, r4) => some ((String.mk k, v) :: kvs, r4)
            | '}' :: r3 => some ([(String.mk k, v)], r3)
            | _ => none
        | _ => none
    | _ => none

end

/-- Parse a complete JSON document: the whole input must be one value. -/
def jsonParse (cs : List Char) : Option Json :=
  match parseVal (cs.length + 1) cs with
  | some (v, []) => some v
  | _ => none

/-! ## Round trip: parsing a serialized value -/

theorem Char_ofNat_toNat (c : Char) : Char.ofNat c.toNat = c := by
  have hv : c.toNat.isValidChar := c.valid
  have ht := Char_toNat_ofNat_valid hv
  have hval : (Char.ofNat c.toNat).val = c.val := by
    apply UInt32.ext
    exact ht
  cases hX : Char.ofNat c.toNat with
  | mk v1 h1 =>
    cases c with
    | mk v2 h2 =>
      rw [hX] at hval
      simp_all

theorem takeWhile_append_all {p : Char → Bool} :
    ∀ (l r : List Char), (∀ c ∈ l, p c = true) →
      (l ++ r).takeWhile p = l ++ r.takeWhile p := by
  intro l r h
  induction l with
  | nil => simp
  | cons c cs ih =>
    simp only [List.cons_append, List.takeWhile_cons,
      h c (List.mem_cons_self c cs), ih fun x hx => h x (List.mem_cons_of_mem _ hx)]
    simp

theorem dropWhile_append_all {p : Char → Bool} :
    ∀ (l r : List Char), (∀ c ∈ l, p c = true) →
      (l ++ r).dropWhile p = r.dropWhile p := by
  intro l r h
  induction l with
  | nil => simp
  | cons c cs ih =>
    simp only [List.cons_append, List.dropWhile_cons,
      h c (List.mem_cons_self c cs), ih fun x hx => h x (List.mem_cons_of_mem _ hx)]
    simp

/-- No character of `rest` is consumed by a greedy digit scan. -/
def headNotDigit (rest : List Char) : Prop :=
  ∀ c, rest.head? = some c → isDigitChar c = false

theorem takeWhile_not_head {p : Char → Bool} (r : List Char)
    (h : ∀ c, r.head? = some c → p c = false) : r.takeWhile p = [] := by
  cases r with
  | nil => rfl
  | cons c cs => simp [List.takeWhile_cons, h c rfl]

theorem dropWhile_not_head {p : Char → Bool} (r : List Char)
    (h : ∀ c, r.head? = some c → p c = false) : r.dropWhile p = r := by
  cases r with
  | nil => rfl
  | cons c cs => simp [List.dropWhile_cons, h c rfl]

theorem parseNat_natChars (n : Nat) (rest : List Char) (h : headNotDigit rest) :
    parseNat (natChars n ++ rest) = some (n, rest) := by
  unfold parseNat
  rw [takeWhile_append_all _ _ (natChars_all_digits n),
    dropWhile_append_all _ _ (natChars_all_digits n),
    takeWhile_not_head rest h, dropWhile_not_head rest h]
  simp [List.isEmpty_iff, natChars_ne_nil n, digitsToNat_natChars]

theorem jsonSerialize_ne_nil (v : Json) : jsonSerialize v ≠ [] := by
  cases v with
  | num n =>
    simp only [jsonSerialize, intChars]
    split
    · simp
    · exact natChars_ne_nil _
  | bool b => cases b <;> simp [jsonSerialize]
  | arr xs => cases xs <;> simp [jsonSerialize]
  | obj kvs => cases kvs <;> simp [jsonSerialize]
  | null => simp [jsonSerialize]
  | str s => simp [jsonSerialize]

theorem jsonSerialize_length_pos (v : Json) : 0 < (jsonSerialize v).length := by
  cases h : jsonSerialize v with
  | nil => exact absurd h (jsonSerialize_ne_nil v)
  | cons c cs => simp

/-- The first character of a serialized value is never a closing
delimiter. -/
theorem jsonSerialize_head_not_close (v : Json) :
    ∀ c, (jsonSerialize v).head? = some c → c ≠ ']' ∧ c ≠ '}' := by
  intro c hc
  cases v with
  | null => simp [jsonSerialize] at hc; subst hc; decide
  | bool b => cases b <;> simp [jsonSerialize] at hc <;> subst hc <;> decide
  | str s => simp [jsonSerialize] at hc; subst hc; decide
  | arr xs => cases xs <;> simp [jsonSerialize] at hc <;> subst hc <;> decide
  | obj kvs => cases kvs <;> simp [jsonSerialize] at hc <;> subst hc <;> decide
  | num n =>
    simp only [jsonSerialize, intChars] at hc
    split at hc
    · simp at hc; subst hc; decide
    · have hne := natChars_ne_nil n.toNat
      have hdig := natChars_all_digits n.toNat
      cases hnc : natChars n.toNat with
      | nil => exact absurd hnc hne
      | cons d ds =>
        rw [hnc] at hc
        simp only [List.head?_cons, Option.some.injEq] at hc
        have hmem : d ∈ natChars n.toNat := by
          rw [hnc]; exact List.mem_cons_self d ds
        have hd := hdig d hmem
        rw [← hc]
        constructor <;> intro hh <;> rw [hh] at hd <;> revert hd <;> decide

theorem escDecode_u (t : Nat) (h32 : t < 0x20) (tail : List Char) :
    escDecode 'u' ('0' :: '0' :: hexDigitChar (t / 16) :: hexDigitChar (t % 16) :: tail)
      = some (Char.ofNat t, tail) := by
  have hd : hexCharVal (hexDigitChar (t / 16)) = some (t / 16) :=
    hexCharVal_hexDigitChar (by omega)
  have hm : hexCharVal (hexDigitChar (t % 16)) = some (t % 16) :=
    hexCharVal_hexDigitChar (Nat.mod_lt _ (by omega))
  have h0 : hexCharVal '0' = some 0 := by decide
  simp only [escDecode, Char.reduceEq, reduceIte, h0, hd, hm]
  have hv : 0 * 4096 + 0 * 256 + t / 16 * 16 + t % 16 = t := by omega
  simp only [hv]
  rw [if_pos (isValidChar_of_lt_d800 (by omega : t < 0xd800))]

theorem parseStrAux_round (s : List Char) :
    ∀ (rest : List Char) (fuel : Nat), (escList s).length < fuel →
      parseStrAux fuel (escList s ++ '"' :: rest) = some (s, rest) := by
  induction s with
  | nil =>
    intro rest fuel hf
    obtain ⟨f, rfl⟩ : ∃ f, fuel = f + 1 := ⟨fuel - 1, by omega⟩
    simp [escList, parseStrAux]
  | cons c cs ih =>
    intro rest fuel hf
    have hshape : escList (c :: cs) ++ '"' :: rest
        = escChar c ++ (escList cs ++ '"' :: rest) := by
      simp [escList]
    have hlen : (escList (c :: cs)).length
        = (escChar c).length + (escList cs).length := by
      simp [escList]
    rw [hshape]
    by_cases h1 : c = '"'
    · subst h1
      rw [show escChar '"' = ['\\', '"'] from by simp [escChar]] at hlen ⊢
      rw [hlen] at hf
      obtain ⟨f, rfl⟩ : ∃ f, fuel = f + 1 := ⟨fuel - 1, by omega⟩
      simp only [List.append_eq, List.cons_append, List.nil_append, parseStrAux, escDecode,
        Char.reduceEq, reduceIte, List.length_cons,
        ih rest f (by simp at hf; omega)]
    · by_cases h2 : c = '\\'
      · subst h2
        rw [show escChar '\\' = ['\\', '\\'] from by simp [escChar]] at hlen ⊢
        rw [hlen] at hf
        obtain ⟨f, rfl⟩ : ∃ f, fuel = f + 1 := ⟨fuel - 1, by omega⟩
        simp only [List.append_eq, List.cons_append, List.nil_append, parseStrAux, escDecode,
          Char.reduceEq, reduceIte, List.length_cons,
          ih rest f (by simp at hf; omega)]
      · by_cases h3 : c.toNat < 0x20
        · have hofn := Char_ofNat_toNat c
          by_cases hb : c.toNat = 8
          · rw [show escChar c = ['\\', 'b'] from by
              simp [escChar, h1, h2, h3, hb]] at hlen ⊢
            rw [hlen] at hf
            obtain ⟨f, rfl⟩ : ∃ f, fuel = f + 1 := ⟨fuel - 1, by omega⟩
            simp only [List.append_eq, List.cons_append, List.nil_append, parseStrAux, escDecode,
              Char.reduceEq, reduceIte, List.length_cons,
              ih rest f (by simp at hf; omega)]
            rw [← hb, hofn]
          · by_cases ht : c.toNat = 9
            · rw [show escChar c = ['\\', 't'] from by
                simp [escChar, h1, h2, h3, hb, ht]] at hlen ⊢
              rw [hlen] at hf
              obtain ⟨f, rfl⟩ : ∃ f, fuel = f + 1 := ⟨fuel - 1, by omega⟩
              simp only [List.append_eq, List.cons_append, List.nil_append, parseStrAux, escDecode,
                Char.reduceEq, reduceIte, List.length_cons,
                ih rest f (by simp at hf; omega)]
              rw [← ht, hofn]
            · by_cases hn : c.toNat = 10
              · rw [show escChar c = ['\\', 'n'] from by
                  simp [escChar, h1, h2, h3, hb, ht, hn]] at hlen ⊢
                rw [hlen] at hf
                obtain ⟨f, rfl⟩ : ∃ f, fuel = f + 1 := ⟨fuel - 1, by omega⟩
                simp only [List.append_eq, List.cons_append, List.nil_append, parseStrAux, escDecode,
                  Char.reduceEq, reduceIte, List.length_cons,
                  ih rest f (by simp at hf; omega)]
                rw [← hn, hofn]
              · by_cases hfc : c.toNat = 12
                · rw [show escChar c = ['\\', 'f'] from by
                    simp [escChar, h1, h2, h3, hb, ht, hn, hfc]] at hlen ⊢
                  rw [hlen] at hf
                  obtain ⟨f, rfl⟩ : ∃ f, fuel = f + 1 := ⟨fuel - 1, by omega⟩
                  simp only [List.append_eq, List.cons_append, List.nil_append, parseStrAux, escDecode,
                    Char.reduceEq, reduceIte, List.length_cons,
                    ih rest f (by simp at hf; omega)]
                  rw [← hfc, hofn]
                · by_cases hr : c.toNat = 13
                  · rw [show escChar c = ['\\', 'r'] from by
                      simp [escChar, h1, h2, h3, hb, ht, hn, hfc, hr]] at hlen ⊢
                    rw [hlen] at hf
                    obtain ⟨f, rfl⟩ : ∃ f, fuel = f + 1 := ⟨fuel - 1, by omega⟩
                    simp only [List.append_eq, List.cons_append, List.nil_append, parseStrAux, escDecode,
                      Char.reduceEq, reduceIte, List.length_cons,
                      ih rest f (by simp at hf; omega)]
                    rw [← hr, hofn]
                  · rw [show escChar c
                        = ['\\', 'u', '0', '0', hexDigitChar (c.toNat / 16),
                           hexDigitChar (c.toNat % 16)] from by
                      simp [escChar, h1, h2, h3, hb, ht, hn, hfc, hr]] at hlen ⊢
                    rw [hlen] at hf
                    obtain ⟨f, rfl⟩ : ∃ f, fuel = f + 1 := ⟨fuel - 1, by omega⟩
                    simp only [List.append_eq, List.cons_append, List.nil_append, parseStrAux,
                      Char.reduceEq, reduceIte]
                    rw [escDecode_u c.toNat h3 (escList cs ++ '"' :: rest)]
                    simp only [ih rest f (by simp at hf; omega), hofn]
        · rw [show escChar c = [c] from by simp [escChar, h1, h2, h3]] at hlen ⊢
          rw [hlen] at hf
          obtain ⟨f, rfl⟩ : ∃ f, fuel = f + 1 := ⟨fuel - 1, by omega⟩
          simp only [List.append_eq, List.cons_append, List.nil_append, parseStrAux, if_neg h1, if_neg h2,
            ih rest f (by simp at hf; omega)]

/-- A serialized number must not be followed directly by another digit. -/
def numOk (v : Json) (rest : List Char) : Prop :=
  ∀ n, v = Json.num n → headNotDigit rest

theorem digitChar_not_keyword {d : Char} (h : isDigitChar d = true) :
    ¬d = 'n' ∧ ¬d = 't' ∧ ¬d = 'f' ∧ ¬d = '"' ∧ ¬d = '[' ∧ ¬d = '{' ∧ ¬d = '-' := by
  refine ⟨?_, ?_, ?_, ?_, ?_, ?_, ?_⟩ <;> intro he <;> rw [he] at h <;> revert h <;> decide

theorem Json_sizeOf_pos (v : Json) : 0 < sizeOf v := by
  cases v <;> simp_arith

theorem serElems_split (x : Json) (xs : List Json) :
    ∃ T, serElems x xs = jsonSerialize x ++ T := by
  cases xs with
  | nil => exact ⟨[], by simp [serElems]⟩
  | cons y ys => exact ⟨',' :: serElems y ys, by simp [serElems]⟩

theorem serMembers_starts (kv : String × Json) (kvs : List (String × Json)) :
    ∃ t, serMembers kv kvs = '"' :: t := by
  obtain ⟨k, v⟩ := kv
  cases kvs with
  | nil => exact ⟨escList k.data ++ '"' :: ':' :: jsonSerialize v, by simp [serMembers]⟩
  | cons kv2 kvs2 =>
    exact ⟨(escList k.data ++ '"' :: ':' :: jsonSerialize v) ++ ',' :: serMembers kv2 kvs2,
      by simp [serMembers]⟩

mutual

theorem parseVal_ser : ∀ (v : Json) (rest : List Char) (fuel : Nat),
    (jsonSerialize v).length < fuel → numOk v rest →
    parseVal fuel (jsonSerialize v ++ rest) = some (v, rest)
  | .null, rest, fuel, hf, _ => by
    obtain ⟨f, rfl⟩ : ∃ f, fuel = f + 1 := ⟨fuel - 1, by omega⟩
    simp [jsonSerialize, parseVal]
  | .bool b, rest, fuel, hf, _ => by
    obtain ⟨f, rfl⟩ : ∃ f, fuel = f + 1 := ⟨fuel - 1, by omega⟩
    cases b <;> simp [jsonSerialize, parseVal]
  | .str s, rest, fuel, hf, _ => by
    obtain ⟨f, rfl⟩ : ∃ f, fuel = f + 1 := ⟨fuel - 1, by omega⟩
    have hsh : jsonSerialize (.str s) ++ rest
        = '"' :: (escList s.data ++ '"' :: rest) := by
      simp [jsonSerialize]
    rw [hsh]
    have hlen : (escList s.data).length < f + 1 := by
      simp [jsonSerialize] at hf
      omega
    simp only [parseVal, Char.reduceEq, reduceIte,
      parseStrAux_round s.data rest (f + 1) hlen]
  | .num n, rest, fuel, hf, hn => by
    obtain ⟨f, rfl⟩ : ∃ f, fuel = f + 1 := ⟨fuel - 1, by omega⟩
    by_cases hneg : n < 0
    · have hsh : jsonSerialize (.num n) ++ rest
          = '-' :: (natChars n.natAbs ++ rest) := by
        simp [jsonSerialize, intChars, hneg]
      rw [hsh]
      have hrest : headNotDigit rest := hn n rfl
      simp only [parseVal, Char.reduceEq, reduceIte,
        parseNat_natChars n.natAbs rest hrest]
      show some (Json.num (-(n.natAbs : Int)), rest) = some (Json.num n, rest)
      have hv : -(n.natAbs : Int) = n := by omega
      rw [hv]
    · have hsh : jsonSerialize (.num n) ++ rest = natChars n.toNat ++ rest := by
        simp [jsonSerialize, intChars, hneg]
      rw [hsh]
      obtain ⟨d, ds, hnc⟩ : ∃ d ds, natChars n.toNat = d :: ds := by
        cases hx : natChars n.toNat with
        | nil => exact absurd hx (natChars_ne_nil _)
        | cons d ds => exact ⟨d, ds, rfl⟩
      have hdig : isDigitChar d = true :=
        natChars_all_digits n.toNat d (by rw [hnc]; exact List.mem_cons_self d ds)
      obtain ⟨k1, k2, k3, k4, k5, k6, k7⟩ := digitChar_not_keyword hdig
      rw [hnc, List.cons_append]
      simp only [parseVal, if_neg k1, if_neg k2, if_neg k3, if_neg k4, if_neg k5,
        if_neg k6, if_neg k7, if_pos hdig]
      rw [show d :: (ds ++ rest) = natChars n.toNat ++ rest by rw [hnc, List.cons_append]]
      rw [parseNat_natChars n.toNat rest (hn n rfl)]
      show some (Json.num ((n.toNat : Nat) : Int), rest) = some (Json.num n, rest)
      have hv : ((n.toNat : Nat) : Int) = n := by omega
      rw [hv]
  | .arr [], rest, fuel, hf, _ => by
    obtain ⟨f, rfl⟩ : ∃ f, fuel = f + 1 := ⟨fuel - 1, by omega⟩
    simp [jsonSerialize, parseVal]
  | .arr (x :: xs), rest, fuel, hf, _ => by
    obtain ⟨f, rfl⟩ : ∃ f, fuel = f + 1 := ⟨fuel - 1, by omega⟩
    have hsh : jsonSerialize (.arr (x :: xs)) ++ rest
        = '[' :: (serElems x xs ++ ']' :: rest) := by
      simp [jsonSerialize]
    rw [hsh]
    obtain ⟨T, hT⟩ := serElems_split x xs
    obtain ⟨d, ds, hsx⟩ : ∃ d ds, jsonSerialize x = d :: ds := by
      cases hx : jsonSerialize x with
      | nil => exact absurd hx (jsonSerialize_ne_nil x)
      | cons d ds => exact ⟨d, ds, rfl⟩
    have hhead : (serElems x xs ++ ']' :: rest).head? = some d := by
      rw [hT, hsx]
      simp
    have hne : ¬(serElems x xs ++ ']' :: rest).head? = some ']' := by
      rw [hhead]
      have := (jsonSerialize_head_not_close x d (by rw [hsx]; simp)).1
      simp [this]
    have hfe : (serElems x xs).length + 1 < f := by
      simp [jsonSerialize] at hf
      omega
    simp only [parseVal, Char.reduceEq, reduceIte, if_neg hne,
      parseElems_ser x xs rest f hfe]
  | .obj [], rest, fuel, hf, _ => by
    obtain ⟨f, rfl⟩ : ∃ f, fuel = f + 1 := ⟨fuel - 1, by omega⟩
    simp [jsonSerialize, parseVal]
  | .obj (kv :: kvs), rest, fuel, hf, _ => by
    obtain ⟨f, rfl⟩ : ∃ f, fuel = f + 1 := ⟨fuel - 1, by omega⟩
    have hsh : jsonSerialize (.obj (kv :: kvs)) ++ rest
        = '{' :: (serMembers kv kvs ++ '}' :: rest) := by
      simp [jsonSerialize]
    rw [hsh]
    obtain ⟨t, ht⟩ := serMembers_starts kv kvs
    have hne : ¬(serMembers kv kvs ++ '}' :: rest).head? = some '}' := by
      rw [ht]
      simp
    have hfm : (serMembers kv kvs).length + 1 < f := by
      simp [jsonSerialize] at hf
      omega
    simp only [parseVal, Char.reduceEq, reduceIte, if_neg hne,
      parseMembers_ser kv kvs rest f hfm]
termination_by v _ _ _ _ => sizeOf v
decreasing_by all_goals (simp_wf <;> omega)

theorem parseElems_ser : ∀ (x : Json) (xs : List Json) (rest : List Char) (fuel : Nat),
    (serElems x xs).length + 1 < fuel →
    parseElems fuel (serElems x xs ++ ']' :: rest) = some (x :: xs, rest)
  | x, [], rest, fuel, hf => by
    obtain ⟨f, rfl⟩ : ∃ f, fuel = f + 1 := ⟨fuel - 1, by omega⟩
    have hfx : (jsonSerialize x).length < f := by
      simp [serElems] at hf
      omega
    have hnum : numOk x (']' :: rest) := by
      intro n _ c hc
      simp at hc
      rw [← hc]
      decide
    simp only [serElems, parseElems, parseVal_ser x (']' :: rest) f hfx hnum]
  | x, y :: ys, rest, fuel, hf => by
    obtain ⟨f, rfl⟩ : ∃ f, fuel = f + 1 := ⟨fuel - 1, by omega⟩
    have hsh : serElems x (y :: ys) ++ ']' :: rest
        = jsonSerialize x ++ (',' :: (serElems y ys ++ ']' :: rest)) := by
      simp [serElems]
    rw [hsh]
    have hfx : (jsonSerialize x).length < f := by
      simp [serElems] at hf
      omega
    have hnum : numOk x (',' :: (serElems y ys ++ ']' :: rest)) := by
      intro n _ c hc
      simp at hc
      rw [← hc]
      decide
    have hfy : (serElems y ys).length + 1 < f := by
      have := jsonSerialize_length_pos x
      simp [serElems] at hf
      omega
    simp only [parseElems, parseVal_ser x _ f hfx hnum,
      parseElems_ser y ys rest f hfy]
termination_by x xs _ _ _ => 1 + sizeOf x + sizeOf xs
decreasing_by all_goals (simp_wf <;> omega)

theorem parseMembers_ser : ∀ (kv : String × Json) (kvs : List (String × Json))
    (rest : List Char) (fuel : Nat),
    (serMembers kv kvs).length + 1 < fuel →
    parseMembers fuel (serMembers kv kvs ++ '}' :: rest) = some (kv :: kvs, rest)
  | (k, v), [], rest, fuel, hf => by
    obtain ⟨f, rfl⟩ : ∃ f, fuel = f + 1 := ⟨fuel - 1, by omega⟩
    have hsh : serMembers (k, v) [] ++ '}' :: rest
        = '"' :: (escList k.data ++ '"' :: (':' :: (jsonSerialize v ++ '}' :: rest))) := by
      simp [serMembers]
    rw [hsh]
    have hkl : (escList k.data).length < f + 1 := by
      simp [serMembers] at hf
      omega
    have hfv : (jsonSerialize v).length < f := by
      simp [serMembers] at hf
      omega
    have hnum : numOk v ('}' :: rest) := by
      intro n _ c hc
      simp at hc
      rw [← hc]
      decide
    simp only [parseMembers,
      parseStrAux_round k.data (':' :: (jsonSerialize v ++ '}' :: rest)) (f + 1) hkl,
      parseVal_ser v ('}' :: rest) f hfv hnum]
  | (k, v), kv2 :: kvs2, rest, fuel, hf => by
    obtain ⟨f, rfl⟩ : ∃ f, fuel = f + 1 := ⟨fuel - 1, by omega⟩
    have hsh : serMembers (k, v) (kv2 :: kvs2) ++ '}' :: rest
        = '"' :: (escList k.data ++ '"' :: (':' :: (jsonSerialize v
            ++ ',' :: (serMembers kv2 kvs2 ++ '}' :: rest)))) := by
      simp [serMembers]
    rw [hsh]
    have hkl : (escList k.data).length < f + 1 := by
      simp [serMembers] at hf
      omega
    have hfv : (jsonSerialize v).length < f := by
      simp [serMembers] at hf
      omega
    have hnum : numOk v (',' :: (serMembers kv2 kvs2 ++ '}' :: rest)) := by
      intro n _ c hc
      simp at hc
      rw [← hc]
      decide
    have hfm : (serMembers kv2 kvs2).length + 1 < f := by
      simp [serMembers] at hf
      omega
    simp only [parseMembers,
      parseStrAux_round k.data
        (':' :: (jsonSerialize v ++ ',' :: (serMembers kv2 kvs2 ++ '}' :: rest)))
        (f + 1) hkl,
      parseVal_ser v _ f hfv hnum,
      parseMembers_ser kv2 kvs2 rest f hfm]
termination_by kv kvs _ _ _ => 1 + sizeOf kv + sizeOf kvs
decreasing_by all_goals (simp_wf <;> omega)

end

/-- Parsing a serialized JSON document recovers the document. -/
theorem jsonParse_jsonSerialize (v : Json) :
    jsonParse (jsonSerialize v) = some v := by
  unfold jsonParse
  have h := parseVal_ser v [] ((jsonSerialize v).length + 1) (by omega)
    (by intro n _ c hc; simp at hc)
  rw [show jsonSerialize v ++ [] = jsonSerialize v by simp] at h
  rw [h]

/-! ## UTF-8 (`String::from_utf8` / `str::as_bytes`) -/

/-- UTF-8 encoding of one scalar value. -/
def utf8EncodeChar (c : Char) : List Nat :=
  if c.toNat < 0x80 then [c.toNat]
  else if c.toNat < 0x800 then [0xC0 + c.toNat / 64, 0x80 + c.toNat % 64]
  else if c.toNat < 0x10000 then
    [0xE0 + c.toNat / 4096, 0x80 + (c.toNat / 64) % 64, 0x80 + c.toNat % 64]
  else
    [0xF0 + c.toNat / 262144, 0x80 + (c.toNat / 4096) % 64,
     0x80 + (c.toNat / 64) % 64, 0x80 + c.toNat % 64]

/-- UTF-8 encoding of a character sequence (Rust `str::as_bytes`). -/
def utf8Encode : List Char → List Nat
  | [] => []
  | c :: cs => utf8EncodeChar c ++ utf8Encode cs

/-- Continuation-byte test. -/
def isCont (b : Nat) : Bool :=
  decide (0x80 ≤ b ∧ b < 0xC0)

/-- Decode the continuation of a two-byte UTF-8 sequence. -/
def utf8Dec2 (b : Nat) : List Nat → Option (Char × List Nat)
  | b1 :: rest' =>
    if isCont b1 then some (Char.ofNat ((b - 0xC0) * 64 + (b1 - 0x80)), rest')
    else none
  | [] => none

/-- Decode the continuation of a three-byte UTF-8 sequence (rejecting
overlong forms and surrogates, as Rust does). -/
def utf8Dec3 (b : Nat) : List Nat → Option (Char × List Nat)
  | b1 :: b2 :: rest' =>
    if isCont b1 ∧ isCont b2 then
      if (b - 0xE0) * 4096 + (b1 - 0x80) * 64 + (b2 - 0x80) < 0x800 then none
      else if 0xD800 ≤ (b - 0xE0) * 4096 + (b1 - 0x80) * 64 + (b2 - 0x80) ∧
          (b - 0xE0) * 4096 + (b1 - 0x80) * 64 + (b2 - 0x80) ≤ 0xDFFF then none
      else some (Char.ofNat ((b - 0xE0) * 4096 + (b1 - 0x80) * 64 + (b2 - 0x80)), rest')
    else none
  | _ => none

/-- Decode the continuation of a four-byte UTF-8 sequence (rejecting
overlong forms and out-of-range scalars). -/
def utf8Dec4 (b : Nat) : List Nat → Option (Char × List Nat)
  | b1 :: b2 :: b3 :: rest' =>
    if isCont b1 ∧ isCont b2 ∧ isCont b3 then
      if (b - 0xF0) * 262144 + (b1 - 0x80) * 4096 + (b2 - 0x80) * 64 + (b3 - 0x80)
          < 0x10000 then none
      else if 0x10FFFF <
          (b - 0xF0) * 262144 + (b1 - 0x80) * 4096 + (b2 - 0x80) * 64 + (b3 - 0x80)
        then none
      else some (Char.ofNat ((b - 0xF0) * 262144 + (b1 - 0x80) * 4096
        + (b2 - 0x80) * 64 + (b3 - 0x80)), rest')
    else none
  | _ => none

/-- Decode a single UTF-8 scalar from the front of a byte list. -/
def utf8DecodeChar1 : List Nat → Option (Char × List Nat)
  | [] => none
  | b :: rest =>
    if b < 0x80 then some (Char.ofNat b, rest)
    else if b < 0xC2 then none
    else if b < 0xE0 then utf8Dec2 b rest
    else if b < 0xF0 then utf8Dec3 b rest
    else if b < 0xF5 then utf8Dec4 b rest
    else none

/-- Fuel-indexed decoding loop; the fuel only bounds the number of decoded
characters, and `utf8Decode` supplies enough for any input. -/
def utf8DecodeLoop : Nat → List Nat → Option (List Char)
  | _, [] => some []
  | 0, _ :: _ => none
  | fuel + 1, b :: rest =>
    match utf8DecodeChar1 (b :: rest) with
    | some (c, rest') => (utf8DecodeLoop fuel rest').map (c :: ·)
    | none => none

/-- Strict UTF-8 decoding (Rust `String::from_utf8`): rejects overlong
forms, surrogates, out-of-range scalars and stray continuation bytes. -/
def utf8Decode (l : List Nat) : Option (List Char) :=
  utf8DecodeLoop l.length l

theorem Char_toNat_lt (c : Char) : c.toNat < 0x110000 := by
  have hv : c.toNat.isValidChar := c.valid
  rcases hv with h | h
  · omega
  · omega

theorem Char_toNat_not_surrogate (c : Char) :
    ¬(0xD800 ≤ c.toNat ∧ c.toNat ≤ 0xDFFF) := by
  have hv : c.toNat.isValidChar := c.valid
  rcases hv with h | h <;> omega

theorem utf8DecodeChar1_encodeChar (c : Char) (bs : List Nat) :
    utf8DecodeChar1 (utf8EncodeChar c ++ bs) = some (c, bs) := by
  have hlt := Char_toNat_lt c
  have hsur := Char_toNat_not_surrogate c
  by_cases h1 : c.toNat < 0x80
  · rw [show utf8EncodeChar c = [c.toNat] from by simp [utf8EncodeChar, h1]]
    rw [List.cons_append, List.nil_append, utf8DecodeChar1]
    rw [if_pos h1, Char_ofNat_toNat]
  · by_cases h2 : c.toNat < 0x800
    · rw [show utf8EncodeChar c
          = [0xC0 + c.toNat / 64, 0x80 + c.toNat % 64] from by
        simp [utf8EncodeChar, h1, h2]]
      rw [List.cons_append, List.cons_append, List.nil_append, utf8DecodeChar1]
      rw [if_neg (by omega), if_neg (by omega), if_pos (by omega), utf8Dec2]
      rw [if_pos (show isCont (0x80 + c.toNat % 64) = true from by
        simp only [isCont, decide_eq_true_eq]; omega)]
      rw [show (0xC0 + c.toNat / 64 - 0xC0) * 64 + (0x80 + c.toNat % 64 - 0x80)
          = c.toNat from by omega]
      rw [Char_ofNat_toNat]
    · by_cases h3 : c.toNat < 0x10000
      · rw [show utf8EncodeChar c
            = [0xE0 + c.toNat / 4096, 0x80 + (c.toNat / 64) % 64,
               0x80 + c.toNat % 64] from by
          simp [utf8EncodeChar, h1, h2, h3]]
        rw [List.cons_append, List.cons_append, List.cons_append, List.nil_append,
          utf8DecodeChar1]
        rw [if_neg (by omega), if_neg (by omega), if_neg (by omega),
          if_pos (by omega), utf8Dec3]
        rw [if_pos (show (isCont (0x80 + (c.toNat / 64) % 64) : Prop)
            ∧ (isCont (0x80 + c.toNat % 64) : Prop) from by
          constructor <;> simp only [isCont, decide_eq_true_eq] <;> omega)]
        rw [show (0xE0 + c.toNat / 4096 - 0xE0) * 4096
              + (0x80 + (c.toNat / 64) % 64 - 0x80) * 64 + (0x80 + c.toNat % 64 - 0x80)
            = c.toNat from by omega]
        rw [if_neg (by omega), if_neg (by omega), Char_ofNat_toNat]
      · rw [show utf8EncodeChar c
            = [0xF0 + c.toNat / 262144, 0x80 + (c.toNat / 4096) % 64,
               0x80 + (c.toNat / 64) % 64, 0x80 + c.toNat % 64] from by
          simp [utf8EncodeChar, h1, h2, h3]]
        rw [List.cons_append, List.cons_append, List.cons_append, List.cons_append,
          List.nil_append, utf8DecodeChar1]
        rw [if_neg (by omega), if_neg (by omega), if_neg (by omega),
          if_neg (by omega), if_pos (by omega), utf8Dec4]
        rw [if_pos (show (isCont (0x80 + (c.toNat / 4096) % 64) : Prop)
            ∧ (isCont (0x80 + (c.toNat / 64) % 64) : Prop)
            ∧ (isCont (0x80 + c.toNat % 64) : Prop) from by
          refine ⟨?_, ?_, ?_⟩ <;> simp only [isCont, decide_eq_true_eq] <;> omega)]
        rw [show (0xF0 + c.toNat / 262144 - 0xF0) * 262144
              + (0x80 + (c.toNat / 4096) % 64 - 0x80) * 4096
              + (0x80 + (c.toNat / 64) % 64 - 0x80) * 64 + (0x80 + c.toNat % 64 - 0x80)
            = c.toNat from by omega]
        rw [if_neg (by omega), if_neg (by omega), Char_ofNat_toNat]

theorem utf8EncodeChar_ne_nil (c : Char) : utf8EncodeChar c ≠ [] := by
  unfold utf8EncodeChar
  split
  · simp
  · split
    · simp
    · split
      · simp
      · simp

theorem utf8Encode_length_ge (cs : List Char) :
    cs.length ≤ (utf8Encode cs).length := by
  induction cs with
  | nil => simp [utf8Encode]
  | cons c cs ih =>
    have hne := utf8EncodeChar_ne_nil c
    have hpos : 0 < (utf8EncodeChar c).length := by
      cases hx : utf8EncodeChar c with
      | nil => exact absurd hx hne
      | cons b t => simp
    simp only [utf8Encode, List.length_append, List.length_cons]
    omega

theorem utf8DecodeLoop_encode :
    ∀ (cs : List Char) (fuel : Nat), cs.length ≤ fuel →
      utf8DecodeLoop fuel (utf8Encode cs) = some cs := by
  intro cs
  induction cs with
  | nil =>
    intro fuel _
    cases fuel <;> rfl
  | cons c cs ih =>
    intro fuel hf
    obtain ⟨f, rfl⟩ : ∃ f, fuel = f + 1 := ⟨fuel - 1, by simp at hf; omega⟩
    obtain ⟨b, t, hbt⟩ : ∃ b t, utf8EncodeChar c ++ utf8Encode cs = b :: t := by
      cases hx : utf8EncodeChar c with
      | nil => exact absurd hx (utf8EncodeChar_ne_nil c)
      | cons b t => exact ⟨b, t ++ utf8Encode cs, by simp [hx]⟩
    rw [show utf8Encode (c :: cs) = b :: t from by rw [utf8Encode, hbt]]
    rw [utf8DecodeLoop]
    rw [show utf8DecodeChar1 (b :: t) = some (c, utf8Encode cs) from by
      rw [← hbt]; exact utf8DecodeChar1_encodeChar c (utf8Encode cs)]
    show Option.map (fun x => c :: x) (utf8DecodeLoop f (utf8Encode cs))
      = some (c :: cs)
    rw [ih f (by simp at hf; omega)]
    rfl

/-- UTF-8 decoding inverts encoding. -/
theorem utf8Decode_utf8Encode (cs : List Char) :
    utf8Decode (utf8Encode cs) = some cs := by
  unfold utf8Decode
  exact utf8DecodeLoop_encode cs (utf8Encode cs).length (utf8Encode_length_ge cs)

/-- Encoded bytes are bytes. -/
theorem utf8Encode_lt_256 (cs : List Char) : ∀ b ∈ utf8Encode cs, b < 256 := by
  induction cs with
  | nil => simp [utf8Encode]
  | cons c cs ih =>
    intro b hb
    simp only [utf8Encode, List.mem_append] at hb
    rcases hb with hb | hb
    · have hlt := Char_toNat_lt c
      unfold utf8EncodeChar at hb
      split at hb
      · simp at hb; omega
      · split at hb
        · simp at hb
          rcases hb with h | h <;> omega
        · split at hb
          · simp at hb
            rcases hb with h | h | h <;> omega
          · simp at hb
            rcases hb with h | h | h | h <;> omega
    · exact ih b hb

/-! ## Base64 (standard alphabet with `=` padding, as crate `base64`'s
`STANDARD` engine) -/

/-- Standard-alphabet base64 digit. -/
def b64Char (n : Nat) : Char :=
  if n < 26 then Char.ofNat (65 + n)
  else if n < 52 then Char.ofNat (97 + (n - 26))
  else if n < 62 then Char.ofNat (48 + (n - 52))
  else if n = 62 then '+'
  else '/'

/-- Value of a standard-alphabet base64 digit. -/
def b64Val (c : Char) : Option Nat :=
  if 65 ≤ c.toNat ∧ c.toNat ≤ 90 then some (c.toNat - 65)
  else if 97 ≤ c.toNat ∧ c.toNat ≤ 122 then some (26 + (c.toNat - 97))
  else if 48 ≤ c.toNat ∧ c.toNat ≤ 57 then some (52 + (c.toNat - 48))
  else if c = '+' then some 62
  else if c = '/' then some 63
  else none

/-- Base64 encoding with canonical `=` padding. -/
def base64Encode : List Nat → List Char
  | [] => []
  | [b0] => [b64Char (b0 / 4), b64Char (b0 % 4 * 16), '=', '=']
  | [b0, b1] =>
      [b64Char (b0 / 4), b64Char (b0 % 4 * 16 + b1 / 16), b64Char (b1 % 16 * 4), '=']
  | b0 :: b1 :: b2 :: rest =>
      b64Char (b0 / 4) :: b64Char (b0 % 4 * 16 + b1 / 16)
        :: b64Char (b1 % 16 * 4 + b2 / 64) :: b64Char (b2 % 64) :: base64Encode rest

/-- Base64 decoding requiring canonical padding and zero trailing bits
(the checks `base64::engine::general_purpose::STANDARD` performs). -/
def base64Decode : List Char → Option (List Nat)
  | [] => some []
  | c0 :: c1 :: c2 :: c3 :: rest =>
    if c2 = '=' then
      if c3 = '=' ∧ rest = [] then
        (b64Val c0).bind fun v0 =>
          (b64Val c1).bind fun v1 =>
            if v1 % 16 = 0 then some [v0 * 4 + v1 / 16] else none
      else none
    else if c3 = '=' then
      if rest = [] then
        (b64Val c0).bind fun v0 =>
          (b64Val c1).bind fun v1 =>
            (b64Val c2).bind fun v2 =>
              if v2 % 4 = 0 then
                some [v0 * 4 + v1 / 16, v1 % 16 * 16 + v2 / 4]
              else none
      else none
    else
      (b64Val c0).bind fun v0 =>
        (b64Val c1).bind fun v1 =>
          (b64Val c2).bind fun v2 =>
            (b64Val c3).bind fun v3 =>
              (base64Decode rest).map fun bs =>
                (v0 * 4 + v1 / 16) :: (v1 % 16 * 16 + v2 / 4) :: (v2 % 4 * 64 + v3) :: bs
  | _ => none

set_option maxRecDepth 4000 in
theorem b64Val_b64Char {n : Nat} (h : n < 64) : b64Val (b64Char n) = some n := by
  unfold b64Char b64Val
  by_cases h1 : n < 26
  · have hv : (Char.ofNat (65 + n)).toNat = 65 + n :=
      Char_toNat_ofNat_valid (isValidChar_of_lt_d800 (by omega))
    rw [if_pos h1, if_pos (by omega : 65 ≤ (Char.ofNat (65 + n)).toNat
      ∧ (Char.ofNat (65 + n)).toNat ≤ 90)]
    rw [hv]
    congr 1
    omega
  · by_cases h2 : n < 52
    · have hv : (Char.ofNat (97 + (n - 26))).toNat = 97 + (n - 26) :=
        Char_toNat_ofNat_valid (isValidChar_of_lt_d800 (by omega))
      rw [if_neg h1, if_pos h2, if_neg (by omega), if_pos (by omega)]
      rw [hv]
      congr 1
      omega
    · by_cases h3 : n < 62
      · have hv : (Char.ofNat (48 + (n - 52))).toNat = 48 + (n - 52) :=
          Char_toNat_ofNat_valid (isValidChar_of_lt_d800 (by omega))
        rw [if_neg h1, if_neg h2, if_pos h3, if_neg (by omega), if_neg (by omega),
          if_pos (by omega)]
        rw [hv]
        congr 1
        omega
      · by_cases h4 : n = 62
        · rw [if_neg h1, if_neg h2, if_neg h3, if_pos h4]
          rw [if_neg (by decide), if_neg (by decide), if_neg (by decide),
            if_pos rfl]
          rw [h4]
        · rw [if_neg h1, if_neg h2, if_neg h3, if_neg h4]
          rw [if_neg (by decide), if_neg (by decide), if_neg (by decide),
            if_neg (by decide), if_pos rfl]
          congr 1
          omega

theorem b64Char_ne_pad {n : Nat} (h : n < 64) : ¬b64Char n = '=' := by
  intro he
  have hc := b64Val_b64Char h
  rw [he] at hc
  rw [show b64Val '=' = none from by decide] at hc
  exact Option.noConfusion hc

/-- Base64 decoding inverts encoding on byte lists. -/
theorem base64Decode_base64Encode :
    ∀ (bs : List Nat), (∀ b ∈ bs, b < 256) →
      base64Decode (base64Encode bs) = some bs
  | [], _ => by simp [base64Encode, base64Decode]
  | [b0], h => by
    have hb0 : b0 < 256 := h b0 (by simp)
    rw [show base64Encode [b0]
        = [b64Char (b0 / 4), b64Char (b0 % 4 * 16), '=', '='] from rfl]
    rw [base64Decode]
    rw [if_pos rfl, if_pos ⟨rfl, rfl⟩]
    rw [b64Val_b64Char (by omega), b64Val_b64Char (by omega)]
    simp only [Option.bind]
    rw [if_pos (by omega)]
    rw [show b0 / 4 * 4 + b0 % 4 * 16 / 16 = b0 from by omega]
  | [b0, b1], h => by
    have hb0 : b0 < 256 := h b0 (by simp)
    have hb1 : b1 < 256 := h b1 (by simp)
    rw [show base64Encode [b0, b1]
        = [b64Char (b0 / 4), b64Char (b0 % 4 * 16 + b1 / 16),
           b64Char (b1 % 16 * 4), '='] from rfl]
    rw [base64Decode]
    rw [if_neg (b64Char_ne_pad (by omega)), if_pos rfl, if_pos rfl]
    rw [b64Val_b64Char (by omega), b64Val_b64Char (by omega),
      b64Val_b64Char (by omega)]
    simp only [Option.bind]
    rw [if_pos (by omega)]
    rw [show b0 / 4 * 4 + (b0 % 4 * 16 + b1 / 16) / 16 = b0 from by omega]
    rw [show (b0 % 4 * 16 + b1 / 16) % 16 * 16 + b1 % 16 * 4 / 4 = b1 from by omega]
  | b0 :: b1 :: b2 :: rest, h => by
    have hb0 : b0 < 256 := h b0 (by simp)
    have hb1 : b1 < 256 := h b1 (by simp)
    have hb2 : b2 < 256 := h b2 (by simp)
    have ih := base64Decode_base64Encode rest
      (fun b hb => h b (by simp [hb]))
    rw [show base64Encode (b0 :: b1 :: b2 :: rest)
        = b64Char (b0 / 4) :: b64Char (b0 % 4 * 16 + b1 / 16)
          :: b64Char (b1 % 16 * 4 + b2 / 64) :: b64Char (b2 % 64)
          :: base64Encode rest from rfl]
    rw [base64Decode]
    rw [if_neg (b64Char_ne_pad (by omega)), if_neg (b64Char_ne_pad (by omega))]
    rw [b64Val_b64Char (by omega), b64Val_b64Char (by omega),
      b64Val_b64Char (by omega), b64Val_b64Char (by omega)]
    simp only [Option.bind]
    rw [ih]
    simp only [Option.map]
    rw [show b0 / 4 * 4 + (b0 % 4 * 16 + b1 / 16) / 16 = b0 from by omega]
    rw [show (b0 % 4 * 16 + b1 / 16) % 16 * 16 + (b1 % 16 * 4 + b2 / 64) / 4 = b1 from by
      omega]
    rw [show (b1 % 16 * 4 + b2 / 64) % 4 * 64 + b2 % 64 = b2 from by omega]

/-! ## Error type (`src/errors.rs`, `X402Error`) -/

/-- The error kinds of `X402Error`, with the dynamic message (or wrapped
error rendered as text) as a `String` argument. -/
inductive X402Error where
  | httpError (msg : String) : X402Error
  | jsonError (msg : String) : X402Error
  | base64Error (msg : String) : X402Error
  | blockchainError (msg : String) : X402Error
  | invalidPayload (msg : String) : X402Error
  | verificationFailed (msg : String) : X402Error
  | settlementError (msg : String) : X402Error
  | unsupportedScheme (msg : String) : X402Error
  | unsupportedNetwork (msg : String) : X402Error
  | invalidAddress (msg : String) : X402Error
  | invalidAmount (msg : String) : X402Error
  | timeoutExceeded : X402Error
  | signatureError (msg : String) : X402Error
  | nonceUsed (msg : String) : X402Error
  | missingField (msg : String) : X402Error
  | configError (msg : String) : X402Error
  | noSuitableRequirement : X402Error
  | not402Response (status : Nat) : X402Error
  | urlParseError (msg : String) : X402Error
  | other (msg : String) : X402Error
deriving DecidableEq

/-- `Display` rendering of `X402Error` (the `thiserror` format strings). -/
def errToString : X402Error → String
  | .httpError m => "HTTP error: " ++ m
  | .jsonError m => "JSON error: " ++ m
  | .base64Error m => "Base64 error: " ++ m
  | .blockchainError m => "Blockchain error: " ++ m
  | .invalidPayload m => "Invalid payment payload: " ++ m
  | .verificationFailed m => "Verification failed: " ++ m
  | .settlementError m => "Settlement failed: " ++ m
  | .unsupportedScheme m => "Unsupported scheme: " ++ m
  | .unsupportedNetwork m => "Unsupported network: " ++ m
  | .invalidAddress m => "Invalid address: " ++ m
  | .invalidAmount m => "Invalid amount: " ++ m
  | .timeoutExceeded => "Timeout exceeded"
  | .signatureError m => "Signature verification failed: " ++ m
  | .nonceUsed m => "Nonce already used: " ++ m
  | .missingField m => "Missing required field: " ++ m
  | .configError m => "Configuration error: " ++ m
  | .noSuitableRequirement => "No suitable payment requirement found"
  | .not402Response st => "Expected 402 Payment Required, got status: " ++ String.mk (natChars st)
  | .urlParseError m => "URL parse error: " ++ m
  | .other m => m

/-! ## Protocol types (`src/types.rs`) -/

/-- `PaymentRequirements` (wire names `maxAmountRequired`, `payTo`,
`maxTimeoutSeconds` for the renamed fields). -/
structure PaymentRequirements where
  scheme : String
  network : String
  maxAmountRequired : String
  resource : String
  description : Option String
  mimeType : Option String
  outputSchema : Option Json
  payTo : String
  maxTimeoutSeconds : Nat
  asset : String
  extra : Option Json

/-- `PaymentPayload`; `x402_version : u32` is a `Nat` whose `< 2 ^ 32`
bound is carried as a hypothesis where it matters. -/
structure PaymentPayload where
  x402Version : Nat
  scheme : String
  network : String
  payload : Json
deriving Inhabited

/-- `TransferAuthorization` (wire names `validAfter`, `validBefore`). -/
structure TransferAuthorization where
  from_ : String
  to_ : String
  value : String
  validAfter : String
  validBefore : String
  nonce : String
  signature : String
deriving DecidableEq

/-- `PaymentRequiredResponse`. -/
structure PaymentRequiredResponse where
  x402Version : Nat
  accepts : List PaymentRequirements
  error : Option String

/-- `VerificationRequest`. -/
structure VerificationRequest where
  paymentHeader : String
  paymentRequirements : PaymentRequirements

/-- `VerificationResponse`. -/
structure VerificationResponse where
  isValid : Bool
  invalidReason : Option String
deriving DecidableEq

/-- `SettlementRequest`. -/
structure SettlementRequest where
  paymentHeader : String
  paymentRequirements : PaymentRequirements

/-- `SettlementResponse`. -/
structure SettlementResponse where
  txHash : String
  blockNumber : Option Nat
  error : Option String
deriving DecidableEq

/-! ## The envelope codec (`src/utils.rs`,
`encode_payment_header` / `decode_payment_header`) -/

/-- First-match lookup in a serialized object, as `serde` field access. -/
def lookupField : List (String × Json) → String → Option Json
  | [], _ => none
  | (k', v) :: rest, k => if k' = k then some v else lookupField rest k

/-- Field access on a `Json` value. -/
def jsonField (j : Json) (k : String) : Option Json :=
  match j with
  | .obj kvs => lookupField kvs k
  | _ => none

/-- `serde` serialization of `PaymentPayload` (fields in declaration
order, wire names). -/
def paymentPayloadToJson (p : PaymentPayload) : Json :=
  .obj [("x402Version", .num (p.x402Version : Int)), ("scheme", .str p.scheme),
        ("network", .str p.network), ("payload", p.payload)]

/-- `serde` deserialization of `PaymentPayload`: all four fields required,
`x402Version` a `u32`, unknown fields ignored. -/
def paymentPayloadFromJson (j : Json) : Option PaymentPayload :=
  match jsonField j "x402Version", jsonField j "scheme",
      jsonField j "network", jsonField j "payload" with
  | some (.num v), some (.str sch), some (.str net), some pl =>
    if 0 ≤ v ∧ v < 2 ^ 32 then some ⟨v.toNat, sch, net, pl⟩ else none
  | _, _, _, _ => none

/-- `encode_payment_header`: JSON-serialize, then base64 the UTF-8 bytes.
(The source wraps this in `Result`, but serialization of a
`PaymentPayload` cannot fail.) -/
def encodePaymentHeader (p : PaymentPayload) : String :=
  String.mk (base64Encode (utf8Encode (jsonSerialize (paymentPayloadToJson p))))

/-- Deserialize the parsed JSON document (last step of decoding). -/
def decodeStep4 (j : Json) : Except X402Error PaymentPayload :=
  match paymentPayloadFromJson j with
  | none => .error (.jsonError "invalid PaymentPayload")
  | some p => .ok p

/-- Parse the JSON text (third step of decoding). -/
def decodeStep3 (chars : List Char) : Except X402Error PaymentPayload :=
  match jsonParse chars with
  | none => .error (.jsonError "invalid JSON")
  | some j => decodeStep4 j

/-- Validate UTF-8 (second step of decoding). -/
def decodeStep2 (bytes : List Nat) : Except X402Error PaymentPayload :=
  match utf8Decode bytes with
  | none => .error (.invalidPayload "Invalid UTF-8")
  | some chars => decodeStep3 chars

/-- `decode_payment_header`: base64-decode (`?` maps the failure to
`Base64Error`), UTF-8-validate (mapped to `InvalidPayload`), then JSON
parse and deserialize (`?` maps both failures to `JsonError`). -/
def decodePaymentHeader (s : String) : Except X402Error PaymentPayload :=
  match base64Decode s.data with
  | none => .error (.base64Error "invalid base64")
  | some bytes => decodeStep2 bytes

/-- Whether an error is of the `InvalidPayload` kind. -/
def errIsInvalidPayload : X402Error → Bool
  | .invalidPayload _ => true
  | _ => false

theorem paymentPayloadFromJson_toJson (p : PaymentPayload)
    (h : p.x402Version < 2 ^ 32) :
    paymentPayloadFromJson (paymentPayloadToJson p) = some p := by
  have h1 : jsonField (paymentPayloadToJson p) "x402Version"
      = some (.num (p.x402Version : Int)) := by
    simp [paymentPayloadToJson, jsonField, lookupField]
  have h2 : jsonField (paymentPayloadToJson p) "scheme" = some (.str p.scheme) := by
    simp [paymentPayloadToJson, jsonField, lookupField]
  have h3 : jsonField (paymentPayloadToJson p) "network" = some (.str p.network) := by
    simp [paymentPayloadToJson, jsonField, lookupField]
  have h4 : jsonField (paymentPayloadToJson p) "payload" = some p.payload := by
    simp [paymentPayloadToJson, jsonField, lookupField]
  rw [paymentPayloadFromJson, h1, h2, h3, h4]
  show (if 0 ≤ (p.x402Version : Int) ∧ (p.x402Version : Int) < 2 ^ 32 then
      some (⟨((p.x402Version : Int)).toNat, p.scheme, p.network, p.payload⟩
        : PaymentPayload)
    else none) = some p
  rw [if_pos ⟨by omega, by exact_mod_cast h⟩]
  simp

theorem decodePaymentHeader_of_b64 (s : String) (bytes : List Nat)
    (h : base64Decode s.data = some bytes) :
    decodePaymentHeader s = decodeStep2 bytes := by
  unfold decodePaymentHeader
  rw [h]

theorem decodePaymentHeader_b64_err (s : String)
    (h : base64Decode s.data = none) :
    decodePaymentHeader s = .error (.base64Error "invalid base64") := by
  unfold decodePaymentHeader
  rw [h]

theorem decodeStep2_of_utf8 (bytes : List Nat) (chars : List Char)
    (h : utf8Decode bytes = some chars) :
    decodeStep2 bytes = decodeStep3 chars := by
  unfold decodeStep2
  rw [h]

theorem decodeStep2_utf8_err (bytes : List Nat) (h : utf8Decode bytes = none) :
    decodeStep2 bytes = .error (.invalidPayload "Invalid UTF-8") := by
  unfold decodeStep2
  rw [h]

theorem decodeStep3_of_parse (chars : List Char) (j : Json)
    (h : jsonParse chars = some j) :
    decodeStep3 chars = decodeStep4 j := by
  unfold decodeStep3
  rw [h]

theorem decodeStep3_parse_err (chars : List Char) (h : jsonParse chars = none) :
    decodeStep3 chars = .error (.jsonError "invalid JSON") := by
  unfold decodeStep3
  rw [h]

theorem decodeStep4_of_fromJson (j : Json) (p : PaymentPayload)
    (h : paymentPayloadFromJson j = some p) :
    decodeStep4 j = .ok p := by
  unfold decodeStep4
  rw [h]

theorem decodeStep4_fromJson_err (j : Json) (h : paymentPayloadFromJson j = none) :
    decodeStep4 j = .error (.jsonError "invalid PaymentPayload") := by
  unfold decodeStep4
  rw [h]

theorem encodePaymentHeader_data (p : PaymentPayload) :
    (encodePaymentHeader p).data
      = base64Encode (utf8Encode (jsonSerialize (paymentPayloadToJson p))) := rfl

theorem base64Decode_encodeHeader (p : PaymentPayload) :
    base64Decode (encodePaymentHeader p).data
      = some (utf8Encode (jsonSerialize (paymentPayloadToJson p))) := by
  rw [encodePaymentHeader_data]
  exact base64Decode_base64Encode _ (utf8Encode_lt_256 _)

theorem utf8Decode_serialized (p : PaymentPayload) :
    utf8Decode (utf8Encode (jsonSerialize (paymentPayloadToJson p)))
      = some (jsonSerialize (paymentPayloadToJson p)) := utf8Decode_utf8Encode _

theorem jsonParse_serialized (p : PaymentPayload) :
    jsonParse (jsonSerialize (paymentPayloadToJson p))
      = some (paymentPayloadToJson p) := jsonParse_jsonSerialize _

/-- C8: the envelope codec round-trips: for every `PaymentPayload` (its
`x402Version` being a `u32`), `decode_payment_header` of
`encode_payment_header` succeeds and returns the payload field by field. -/
theorem decode_encode_payment_header (p : PaymentPayload)
    (h : p.x402Version < 2 ^ 32) :
    decodePaymentHeader (encodePaymentHeader p) = .ok p :=
  (decodePaymentHeader_of_b64 _ _ (base64Decode_encodeHeader p)).trans
    ((decodeStep2_of_utf8 _ _ (utf8Decode_serialized p)).trans
      ((decodeStep3_of_parse _ _ (jsonParse_serialized p)).trans
        (decodeStep4_of_fromJson _ _ (paymentPayloadFromJson_toJson p h))))

/-- Concrete payload used as a round-trip witness. -/
def witnessPayload : PaymentPayload :=
  ⟨1, "exact", "8453", .obj [("value", .str "10000"), ("n", .num 7)]⟩

/-- C8 witness: the round trip at a concrete payload. -/
theorem decode_encode_payment_header_witness :
    witnessPayload.x402Version < 2 ^ 32 ∧
      decodePaymentHeader (encodePaymentHeader witnessPayload) = .ok witnessPayload :=
  ⟨by norm_num [witnessPayload], decode_encode_payment_header witnessPayload
    (by norm_num [witnessPayload])⟩

/-- C7 counterexample: an input failing base64 decoding is rejected with
the `Base64Error` kind, not `InvalidPayload`. -/
theorem decode_header_base64_counterexample :
    decodePaymentHeader (String.mk ['!', '!', '!', '!'])
        = .error (.base64Error "invalid base64")
      ∧ errIsInvalidPayload (.base64Error "invalid base64") = false :=
  ⟨rfl, rfl⟩

/-- C7 (amended): each decoding step of `decode_payment_header` fails with
its own error kind: base64 failures with `Base64Error`, UTF-8 validation
failures with `InvalidPayload`, JSON parse and shape failures with
`JsonError`. -/
theorem decode_header_error_kinds (s : String) :
    (base64Decode s.data = none →
      decodePaymentHeader s = .error (.base64Error "invalid base64"))
    ∧ (∀ bytes, base64Decode s.data = some bytes → utf8Decode bytes = none →
        decodePaymentHeader s = .error (.invalidPayload "Invalid UTF-8"))
    ∧ (∀ bytes chars, base64Decode s.data = some bytes →
        utf8Decode bytes = some chars → jsonParse chars = none →
        decodePaymentHeader s = .error (.jsonError "invalid JSON"))
    ∧ (∀ bytes chars j, base64Decode s.data = some bytes →
        utf8Decode bytes = some chars → jsonParse chars = some j →
        paymentPayloadFromJson j = none →
        decodePaymentHeader s = .error (.jsonError "invalid PaymentPayload")) := by
  refine ⟨?_, ?_, ?_, ?_⟩
  · intro hb
    exact decodePaymentHeader_b64_err s hb
  · intro bytes hb hu
    exact (decodePaymentHeader_of_b64 s bytes hb).trans (decodeStep2_utf8_err bytes hu)
  · intro bytes chars hb hu hj
    exact (decodePaymentHeader_of_b64 s bytes hb).trans
      ((decodeStep2_of_utf8 bytes chars hu).trans (decodeStep3_parse_err chars hj))
  · intro bytes chars j hb hu hj hp
    exact (decodePaymentHeader_of_b64 s bytes hb).trans
      ((decodeStep2_of_utf8 bytes chars hu).trans
        ((decodeStep3_of_parse chars j hj).trans (decodeStep4_fromJson_err j hp)))

/-- C7 witness: the base64-failure branch at a concrete input. -/
theorem decode_header_error_kinds_witness :
    decodePaymentHeader (String.mk ['!', '!', '!', '!'])
      = .error (.base64Error "invalid base64") :=
  (decode_header_error_kinds (String.mk ['!', '!', '!', '!'])).1 rfl

/-! ## Amount / address / hex utilities (`src/utils.rs`) -/

/-- Big-endian value of a hex digit string; `none` on a non-hex character. -/
def hexCharsVal (cs : List Char) : Option Nat :=
  cs.foldl (fun acc c => acc.bind fun a => (hexCharVal c).map fun d => a * 16 + d)
    (some 0)

/-- Strip a single `0x` prefix (`str::strip_prefix`, as `H160::from_str`). -/
def strip0xOnce : List Char → List Char
  | '0' :: 'x' :: rest => rest
  | cs => cs

/-- Strip every leading `0x` (`str::trim_start_matches("0x")`). -/
def stripAll0x : List Char → List Char
  | '0' :: 'x' :: rest => stripAll0x rest
  | cs => cs

/-- `parse_address` (`Address::from_str`): optional `0x`, then exactly 40
hex digits; the address is its 160-bit value. -/
def parseAddress (s : String) : Except X402Error Nat :=
  match hexCharsVal (strip0xOnce s.data) with
  | some v => if (strip0xOnce s.data).length = 40 then .ok v else .error (.invalidAddress s)
  | none => .error (.invalidAddress s)

/-- `U256::from_dec_str`: digit characters only (the empty string parses
to zero), overflow over 256 bits rejected. -/
def decStrToNat (cs : List Char) : Option Nat :=
  if cs.all isDigitChar then
    if digitsToNat cs < 2 ^ 256 then some (digitsToNat cs) else none
  else none

/-- The hex branch of `string_to_u256` (`U256::from_str` after a
`0x`/`0X` prefix): nonempty hex digits, at most 64 of them. -/
def hexU256Tail (s : String) (rest : List Char) : Except X402Error Nat :=
  match hexCharsVal rest with
  | some v =>
    if 1 ≤ rest.length ∧ rest.length ≤ 64 then .ok v
    else .error (.invalidAmount s)
  | none => .error (.invalidAmount s)

/-- `string_to_u256`: decimal first, then hex when `0x`/`0X`-prefixed. -/
def stringToU256 (s : String) : Except X402Error Nat :=
  match decStrToNat s.data with
  | some v => .ok v
  | none =>
    match s.data with
    | '0' :: 'x' :: rest => hexU256Tail s rest
    | '0' :: 'X' :: rest => hexU256Tail s rest
    | _ => .error (.invalidAmount s)

/-- `is_timestamp_valid` for a given current time. -/
def isTimestampValid (now validAfter validBefore : Nat) : Bool :=
  decide (validAfter ≤ now ∧ now ≤ validBefore)

/-- `hex::decode_to_slice` into 32 bytes: exactly 64 hex digits. -/
def hexDecode64 (cs : List Char) : Option Nat :=
  if cs.length = 64 then hexCharsVal cs else none

/-- `hex::decode`: pairs of hex digits to bytes. -/
def hexDecodeBytes : List Char → Option (List Nat)
  | [] => some []
  | [_] => none
  | c1 :: c2 :: rest =>
    match hexCharVal c1, hexCharVal c2, hexDecodeBytes rest with
    | some h, some l, some bs => some ((h * 16 + l) :: bs)
    | _, _, _ => none

/-! ## The exact/EVM scheme (`src/schemes/exact_evm.rs`) -/

/-- `serde_json::from_value::<TransferAuthorization>`: seven required
string fields (wire names `validAfter`/`validBefore`). -/
def transferAuthorizationFromJson (j : Json) : Option TransferAuthorization :=
  match jsonField j "from", jsonField j "to", jsonField j "value",
      jsonField j "validAfter", jsonField j "validBefore",
      jsonField j "nonce", jsonField j "signature" with
  | some (.str f), some (.str t), some (.str v), some (.str va),
      some (.str vb), some (.str n), some (.str sg) =>
    some ⟨f, t, v, va, vb, n, sg⟩
  | _, _, _, _, _, _, _ => none

/-- Environment for `ExactEvm::verify`: the wall clock, the RPC provider
(URL validity, `eth_chainId`, the `authorizationState` view call; `none`
models a failed call) and the outcome of secp256k1 recovery over the
EIP-712 message hash (`none` models a recovery error). -/
structure VerifyEnv where
  now : Nat
  providerOk : Bool
  chainId : Option Nat
  authState : Option Bool
  recovered : Option Nat

/-- `verify`, signature tail: length check (130 hex chars), hex decoding,
recovery, and comparison of the recovered signer with `from`. -/
def verifySig (env : VerifyEnv) (auth : TransferAuthorization) (sender : Nat) :
    Except X402Error Bool :=
  if (stripAll0x auth.signature.data).length ≠ 130 then .ok false
  else
    match hexDecodeBytes (stripAll0x auth.signature.data) with
    | none => .error (.invalidPayload "Invalid signature")
    | some _ =>
      match env.recovered with
      | none => .error (.signatureError "recovery failed")
      | some a => .ok (decide (a = sender))

/-- `verify`, nonce segment: parse the 32-byte nonce, then consult
`authorizationState` (an RPC failure counts as consumed) and raise
`NonceUsed` on a consumed nonce — this happens before `verifySig`. -/
def verifyNonce (env : VerifyEnv) (auth : TransferAuthorization) (sender : Nat) :
    Except X402Error Bool :=
  match hexDecode64 (stripAll0x auth.nonce.data) with
  | none => .error (.invalidPayload "Invalid nonce")
  | some _ =>
    if env.authState.getD true then .error (.nonceUsed auth.nonce)
    else verifySig env auth sender

/-- `verify`, provider segment: `Provider::try_from(rpc_url)` and
`get_chainid`. -/
def verifyChain (env : VerifyEnv) (auth : TransferAuthorization) (sender : Nat) :
    Except X402Error Bool :=
  if env.providerOk then
    match env.chainId with
    | none => .error (.blockchainError "chain id")
    | some _ => verifyNonce env auth sender
  else .error (.urlParseError "invalid rpc url")

/-- `verify`, timestamp segment. -/
def verifyTime (env : VerifyEnv) (auth : TransferAuthorization) (sender : Nat) :
    Except X402Error Bool :=
  match stringToU256 auth.validAfter with
  | .error e => .error e
  | .ok va =>
    match stringToU256 auth.validBefore with
    | .error e => .error e
    | .ok vb =>
      if env.now < va ∨ env.now > vb then .ok false
      else verifyChain env auth sender

/-- `verify`, address/amount segment: parse `from`, `to`, `value`, the
expected recipient and amount and the asset, in source order, then
compare recipient and amount. -/
def verifyAddrs (requirements : PaymentRequirements) (env : VerifyEnv)
    (auth : TransferAuthorization) : Except X402Error Bool :=
  match parseAddress auth.from_ with
  | .error e => .error e
  | .ok sender =>
    match parseAddress auth.to_ with
    | .error e => .error e
    | .ok recipient =>
      match stringToU256 auth.value with
      | .error e => .error e
      | .ok value =>
        match parseAddress requirements.payTo with
        | .error e => .error e
        | .ok expectedTo =>
          match stringToU256 requirements.maxAmountRequired with
          | .error e => .error e
          | .ok expectedValue =>
            match parseAddress requirements.asset with
            | .error e => .error e
            | .ok _ =>
              if recipient ≠ expectedTo then .ok false
              else if value ≠ expectedValue then .ok false
              else verifyTime env auth sender

/-- `ExactEvm::verify`: parse the inner payload (raising `InvalidPayload`
on failure), check scheme and network, then the remaining segments. -/
def exactEvmVerify (payload : PaymentPayload) (requirements : PaymentRequirements)
    (env : VerifyEnv) : Except X402Error Bool :=
  match transferAuthorizationFromJson payload.payload with
  | none => .error (.invalidPayload "Invalid authorization")
  | some auth =>
    if payload.scheme ≠ "exact" then .ok false
    else if payload.network ≠ requirements.network then .ok false
    else verifyAddrs requirements env auth

/-! ## Concrete fixtures for witnesses and counterexamples -/

/-- A concrete inner authorization object. -/
def cAuthJson : Json :=
  .obj [("from", .str "0x2222222222222222222222222222222222222222"),
        ("to", .str "0x1111111111111111111111111111111111111111"),
        ("value", .str "10000"),
        ("validAfter", .str "0"),
        ("validBefore", .str "99999999"),
        ("nonce", .str "0xaaaaaaaaaaaaaaaaaaaaaaaaaaaaaaaaaaaaaaaaaaaaaaaaaaaaaaaaaaaaaaaa"),
        ("signature", .str (String.mk ('0' :: 'x' :: List.replicate 130 'a')))]

/-- Concrete requirements matching `cAuthJson`. -/
def cReq : PaymentRequirements :=
  { scheme := "exact", network := "8453", maxAmountRequired := "10000",
    resource := "/weather", description := none, mimeType := none,
    outputSchema := none,
    payTo := "0x1111111111111111111111111111111111111111",
    maxTimeoutSeconds := 300,
    asset := "0x3333333333333333333333333333333333333333", extra := none }

/-- Concrete payload wrapping `cAuthJson`. -/
def cPayload : PaymentPayload :=
  { x402Version := 1, scheme := "exact", network := "8453", payload := cAuthJson }

/-- Environment in which `cPayload` verifies: nonce unused on-chain and
the signature recovering to the payer. -/
def cEnv : VerifyEnv :=
  { now := 5000, providerOk := true, chainId := some 8453,
    authState := some false,
    recovered := some 0x2222222222222222222222222222222222222222 }

/-! ## C1: what a successful verification guarantees -/

/-- C1 (amended): when `ExactEvm::verify` returns `true`, the payload's
scheme is `"exact"` (the scheme's own name — the requirements' `scheme`
field is never consulted), the networks match, and the authorization's
recipient and value equal the requirements' `payTo` and
`maxAmountRequired` after parsing. -/
theorem verify_true_implies_match (p : PaymentPayload) (R : PaymentRequirements)
    (env : VerifyEnv) (auth : TransferAuthorization)
    (hp : transferAuthorizationFromJson p.payload = some auth)
    (hv : exactEvmVerify p R env = .ok true) :
    p.scheme = "exact" ∧ p.network = R.network
      ∧ (∃ a, parseAddress auth.to_ = .ok a ∧ parseAddress R.payTo = .ok a)
      ∧ (∃ v, stringToU256 auth.value = .ok v
          ∧ stringToU256 R.maxAmountRequired = .ok v) := by
  unfold exactEvmVerify at hv
  rw [hp] at hv
  change (if p.scheme ≠ "exact" then Except.ok false
    else if p.network ≠ R.network then Except.ok false
    else verifyAddrs R env auth) = Except.ok true at hv
  by_cases h1 : p.scheme = "exact"
  case neg =>
    rw [if_pos h1] at hv
    exact absurd hv (by simp)
  rw [if_neg (by simp [h1])] at hv
  by_cases h2 : p.network = R.network
  case neg =>
    rw [if_pos h2] at hv
    exact absurd hv (by simp)
  rw [if_neg (by simp [h2])] at hv
  refine ⟨h1, h2, ?_⟩
  unfold verifyAddrs at hv
  split at hv
  · exact absurd hv (by simp)
  rename_i sender hsender
  split at hv
  · exact absurd hv (by simp)
  rename_i recipient hrecipient
  split at hv
  · exact absurd hv (by simp)
  rename_i value hvalue
  split at hv
  · exact absurd hv (by simp)
  rename_i expTo hexpTo
  split at hv
  · exact absurd hv (by simp)
  rename_i expVal hexpVal
  split at hv
  · exact absurd hv (by simp)
  rename_i asset hasset
  by_cases hto : recipient = expTo
  case neg =>
    rw [if_pos (by simpa using hto)] at hv
    exact absurd hv (by simp)
  rw [if_neg (by simpa using hto)] at hv
  by_cases hval : value = expVal
  case neg =>
    rw [if_pos (by simpa using hval)] at hv
    exact absurd hv (by simp)
  rw [if_neg (by simpa using hval)] at hv
  exact ⟨⟨expTo, by rw [hrecipient, hto], hexpTo⟩,
    ⟨expVal, by rw [hvalue, hval], hexpVal⟩⟩

set_option maxRecDepth 40000 in
/-- C1 witness: a concrete successful verification with all the
guaranteed equalities. -/
theorem verify_true_implies_match_witness :
    transferAuthorizationFromJson cPayload.payload
        = some ⟨"0x2222222222222222222222222222222222222222",
            "0x1111111111111111111111111111111111111111", "10000", "0",
            "99999999",
            "0xaaaaaaaaaaaaaaaaaaaaaaaaaaaaaaaaaaaaaaaaaaaaaaaaaaaaaaaaaaaaaaaa",
            String.mk ('0' :: 'x' :: List.replicate 130 'a')⟩
      ∧ exactEvmVerify cPayload cReq cEnv = .ok true
      ∧ cPayload.scheme = "exact" ∧ cPayload.network = cReq.network := by
  have h := verify_true_implies_match cPayload cReq cEnv
    ⟨"0x2222222222222222222222222222222222222222",
      "0x1111111111111111111111111111111111111111", "10000", "0", "99999999",
      "0xaaaaaaaaaaaaaaaaaaaaaaaaaaaaaaaaaaaaaaaaaaaaaaaaaaaaaaaaaaaaaaaa",
      String.mk ('0' :: 'x' :: List.replicate 130 'a')⟩
    rfl rfl
  exact ⟨rfl, rfl, h.1, h.2.1⟩

/-- The requirements of `cReq` with a different advertised scheme. -/
def cReqUpto : PaymentRequirements := { cReq with scheme := "upto" }

set_option maxRecDepth 40000 in
/-- C1 counterexample: `verify` returns `true` although the payload's
scheme differs from the requirements' scheme — the code compares the
payload's scheme against the literal `"exact"`, never against
`requirements.scheme`. -/
theorem verify_scheme_counterexample :
    exactEvmVerify cPayload cReqUpto cEnv = .ok true
      ∧ cPayload.scheme ≠ cReqUpto.scheme := by
  constructor
  · rfl
  · intro h
    exact absurd h (by decide)

/-! ## Evaluation-path lemmas for `ExactEvm::verify` -/

/-- With a parsed authorization and matching scheme and network, `verify`
continues with the address segment. -/
theorem exactEvmVerify_reaches_addrs (p : PaymentPayload)
    (R : PaymentRequirements) (env : VerifyEnv) (auth : TransferAuthorization)
    (hp : transferAuthorizationFromJson p.payload = some auth)
    (hs : p.scheme = "exact") (hn : p.network = R.network) :
    exactEvmVerify p R env = verifyAddrs R env auth := by
  unfold exactEvmVerify
  rw [hp]
  show (if p.scheme ≠ "exact" then Except.ok false
    else if p.network ≠ R.network then Except.ok false
    else verifyAddrs R env auth) = verifyAddrs R env auth
  rw [if_neg (by simp [hs]), if_neg (by simp [hn])]

/-- With all six address/amount parses succeeding and recipient and value
matching, the address segment continues with the timestamp segment. -/
theorem verifyAddrs_reaches_time (R : PaymentRequirements) (env : VerifyEnv)
    (auth : TransferAuthorization) (sender recipient value expTo expVal asset : Nat)
    (h1 : parseAddress auth.from_ = .ok sender)
    (h2 : parseAddress auth.to_ = .ok recipient)
    (h3 : stringToU256 auth.value = .ok value)
    (h4 : parseAddress R.payTo = .ok expTo)
    (h5 : stringToU256 R.maxAmountRequired = .ok expVal)
    (h6 : parseAddress R.asset = .ok asset)
    (hto : recipient = expTo) (hval : value = expVal) :
    verifyAddrs R env auth = verifyTime env auth sender := by
  simp only [verifyAddrs, h1, h2, h3, h4, h5, h6]
  rw [if_neg (by simp [hto]), if_neg (by simp [hval])]

/-- With both timestamps parsed and the clock inside the window, the
timestamp segment continues with the provider segment. -/
theorem verifyTime_reaches_chain (env : VerifyEnv)
    (auth : TransferAuthorization) (sender va vb : Nat)
    (hva : stringToU256 auth.validAfter = .ok va)
    (hvb : stringToU256 auth.validBefore = .ok vb)
    (hin : ¬(env.now < va ∨ env.now > vb)) :
    verifyTime env auth sender = verifyChain env auth sender := by
  simp only [verifyTime, hva, hvb]
  rw [if_neg hin]

/-- With a working provider and a chain id, the provider segment
continues with the nonce segment. -/
theorem verifyChain_reaches_nonce (env : VerifyEnv)
    (auth : TransferAuthorization) (sender cid : Nat)
    (hpr : env.providerOk = true) (hcid : env.chainId = some cid) :
    verifyChain env auth sender = verifyNonce env auth sender := by
  unfold verifyChain
  rw [if_pos hpr, hcid]

/-- With a well-formed nonce that `authorizationState` reports unused,
the nonce segment continues with the signature segment. -/
theorem verifyNonce_reaches_sig (env : VerifyEnv)
    (auth : TransferAuthorization) (sender nv : Nat)
    (hnz : hexDecode64 (stripAll0x auth.nonce.data) = some nv)
    (hfree : env.authState.getD true = false) :
    verifyNonce env auth sender = verifySig env auth sender := by
  unfold verifyNonce
  rw [hnz]
  show (if env.authState.getD true then Except.error (X402Error.nonceUsed auth.nonce)
    else verifySig env auth sender) = verifySig env auth sender
  rw [if_neg (by simp [hfree])]

/-- With a well-formed nonce that `authorizationState` reports consumed
(or whose RPC call failed), the nonce segment raises `NonceUsed`. -/
theorem verifyNonce_used (env : VerifyEnv)
    (auth : TransferAuthorization) (sender nv : Nat)
    (hnz : hexDecode64 (stripAll0x auth.nonce.data) = some nv)
    (hused : env.authState.getD true = true) :
    verifyNonce env auth sender = .error (.nonceUsed auth.nonce) := by
  unfold verifyNonce
  rw [hnz]
  show (if env.authState.getD true then Except.error (X402Error.nonceUsed auth.nonce)
    else verifySig env auth sender) = Except.error (X402Error.nonceUsed auth.nonce)
  rw [if_pos hused]

/-- A signature of the wrong length makes the signature segment return
`false`. -/
theorem verifySig_wrong_length (env : VerifyEnv)
    (auth : TransferAuthorization) (sender : Nat)
    (hlen : (stripAll0x auth.signature.data).length ≠ 130) :
    verifySig env auth sender = .ok false := by
  unfold verifySig
  rw [if_pos hlen]

/-- A well-formed signature whose recovery succeeds makes the signature
segment return the comparison of the recovered signer with `from`. -/
theorem verifySig_recovered (env : VerifyEnv)
    (auth : TransferAuthorization) (sender : Nat) (bs : List Nat) (a : Nat)
    (hlen : (stripAll0x auth.signature.data).length = 130)
    (hbs : hexDecodeBytes (stripAll0x auth.signature.data) = some bs)
    (hrec : env.recovered = some a) :
    verifySig env auth sender = .ok (decide (a = sender)) := by
  unfold verifySig
  rw [if_neg (by simp [hlen]), hbs]
  show (match env.recovered with
    | none => Except.error (X402Error.signatureError "recovery failed")
    | some a => Except.ok (decide (a = sender))) = Except.ok (decide (a = sender))
  rw [hrec]

/-- A well-formed signature whose recovery fails makes the signature
segment raise `SignatureError`. -/
theorem verifySig_recovery_failure (env : VerifyEnv)
    (auth : TransferAuthorization) (sender : Nat) (bs : List Nat)
    (hlen : (stripAll0x auth.signature.data).length = 130)
    (hbs : hexDecodeBytes (stripAll0x auth.signature.data) = some bs)
    (hrec : env.recovered = none) :
    verifySig env auth sender = .error (.signatureError "recovery failed") := by
  unfold verifySig
  rw [if_neg (by simp [hlen]), hbs]
  show (match env.recovered with
    | none => Except.error (X402Error.signatureError "recovery failed")
    | some a => Except.ok (decide (a = sender)))
    = Except.error (X402Error.signatureError "recovery failed")
  rw [hrec]

/-! ## C2: which mismatches return `false` and which raise -/

/-- C2 (amended): `verify` returns `Ok(false)` for the semantic
mismatches it reaches after parsing — wrong scheme or network, recipient
or value differing from the requirements, the clock outside
`[validAfter, validBefore]`, a signature of the wrong length, or a
recovered signer different from `from` — but an inner payload that fails
to parse RAISES `InvalidPayload` (it is not reported as `false`), and a
signature recovery error RAISES `SignatureError`, besides the
nonce-used and transport errors. -/
theorem verify_mismatch_behavior :
    (∀ p R env, transferAuthorizationFromJson p.payload = none →
      exactEvmVerify p R env = .error (.invalidPayload "Invalid authorization"))
    ∧ (∀ p R env auth, transferAuthorizationFromJson p.payload = some auth →
        p.scheme ≠ "exact" → exactEvmVerify p R env = .ok false)
    ∧ (∀ p R env auth, transferAuthorizationFromJson p.payload = some auth →
        p.scheme = "exact" → p.network ≠ R.network →
        exactEvmVerify p R env = .ok false)
    ∧ (∀ p R env auth sender recipient value expTo expVal asset,
        transferAuthorizationFromJson p.payload = some auth →
        p.scheme = "exact" → p.network = R.network →
        parseAddress auth.from_ = .ok sender →
        parseAddress auth.to_ = .ok recipient →
        stringToU256 auth.value = .ok value →
        parseAddress R.payTo = .ok expTo →
        stringToU256 R.maxAmountRequired = .ok expVal →
        parseAddress R.asset = .ok asset →
        recipient ≠ expTo → exactEvmVerify p R env = .ok false)
    ∧ (∀ p R env auth sender recipient value expTo expVal asset,
        transferAuthorizationFromJson p.payload = some auth →
        p.scheme = "exact" → p.network = R.network →
        parseAddress auth.from_ = .ok sender →
        parseAddress auth.to_ = .ok recipient →
        stringToU256 auth.value = .ok value →
        parseAddress R.payTo = .ok expTo →
        stringToU256 R.maxAmountRequired = .ok expVal →
        parseAddress R.asset = .ok asset →
        recipient = expTo → value ≠ expVal → exactEvmVerify p R env = .ok false)
    ∧ (∀ p R env auth sender recipient value expTo expVal asset va vb,
        transferAuthorizationFromJson p.payload = some auth →
        p.scheme = "exact" → p.network = R.network →
        parseAddress auth.from_ = .ok sender →
        parseAddress auth.to_ = .ok recipient →
        stringToU256 auth.value = .ok value →
        parseAddress R.payTo = .ok expTo →
        stringToU256 R.maxAmountRequired = .ok expVal →
        parseAddress R.asset = .ok asset →
        recipient = expTo → value = expVal →
        stringToU256 auth.validAfter = .ok va →
        stringToU256 auth.validBefore = .ok vb →
        (env.now < va ∨ env.now > vb) → exactEvmVerify p R env = .ok false)
    ∧ (∀ p R env auth sender recipient value expTo expVal asset va vb cid nv,
        transferAuthorizationFromJson p.payload = some auth →
        p.scheme = "exact" → p.network = R.network →
        parseAddress auth.from_ = .ok sender →
        parseAddress auth.to_ = .ok recipient →
        stringToU256 auth.value = .ok value →
        parseAddress R.payTo = .ok expTo →
        stringToU256 R.maxAmountRequired = .ok expVal →
        parseAddress R.asset = .ok asset →
        recipient = expTo → value = expVal →
        stringToU256 auth.validAfter = .ok va →
        stringToU256 auth.validBefore = .ok vb →
        ¬(env.now < va ∨ env.now > vb) →
        env.providerOk = true → env.chainId = some cid →
        hexDecode64 (stripAll0x auth.nonce.data) = some nv →
        env.authState.getD true = false →
        (stripAll0x auth.signature.data).length ≠ 130 →
        exactEvmVerify p R env = .ok false)
    ∧ (∀ p R env auth sender recipient value expTo expVal asset va vb cid nv bs a,
        transferAuthorizationFromJson p.payload = some auth →
        p.scheme = "exact" → p.network = R.network →
        parseAddress auth.from_ = .ok sender →
        parseAddress auth.to_ = .ok recipient →
        stringToU256 auth.value = .ok value →
        parseAddress R.payTo = .ok expTo →
        stringToU256 R.maxAmountRequired = .ok expVal →
        parseAddress R.asset = .ok asset →
        recipient = expTo → value = expVal →
        stringToU256 auth.validAfter = .ok va →
        stringToU256 auth.validBefore = .ok vb →
        ¬(env.now < va ∨ env.now > vb) →
        env.providerOk = true → env.chainId = some cid →
        hexDecode64 (stripAll0x auth.nonce.data) = some nv →
        env.authState.getD true = false →
        (stripAll0x auth.signature.data).length = 130 →
        hexDecodeBytes (stripAll0x auth.signature.data) = some bs →
        env.recovered = some a → a ≠ sender →
        exactEvmVerify p R env = .ok false)
    ∧ (∀ p R env auth sender recipient value expTo expVal asset va vb cid nv bs,
        transferAuthorizationFromJson p.payload = some auth →
        p.scheme = "exact" → p.network = R.network →
        parseAddress auth.from_ = .ok sender →
        parseAddress auth.to_ = .ok recipient →
        stringToU256 auth.value = .ok value →
        parseAddress R.payTo = .ok expTo →
        stringToU256 R.maxAmountRequired = .ok expVal →
        parseAddress R.asset = .ok asset →
        recipient = expTo → value = expVal →
        stringToU256 auth.validAfter = .ok va →
        stringToU256 auth.validBefore = .ok vb →
        ¬(env.now < va ∨ env.now > vb) →
        env.providerOk = true → env.chainId = some cid →
        hexDecode64 (stripAll0x auth.nonce.data) = some nv →
        env.authState.getD true = false →
        (stripAll0x auth.signature.data).length = 130 →
        hexDecodeBytes (stripAll0x auth.signature.data) = some bs →
        env.recovered = none →
        exactEvmVerify p R env = .error (.signatureError "recovery failed")) := by
  refine ⟨?_, ?_, ?_, ?_, ?_, ?_, ?_, ?_, ?_⟩
  · intro p R env h
    unfold exactEvmVerify
    rw [h]
  · intro p R env auth hp hs
    unfold exactEvmVerify
    rw [hp]
    show (if p.scheme ≠ "exact" then Except.ok false
      else if p.network ≠ R.network then Except.ok false
      else verifyAddrs R env auth) = Except.ok false
    rw [if_pos hs]
  · intro p R env auth hp hs hn
    unfold exactEvmVerify
    rw [hp]
    show (if p.scheme ≠ "exact" then Except.ok false
      else if p.network ≠ R.network then Except.ok false
      else verifyAddrs R env auth) = Except.ok false
    rw [if_neg (by simp [hs]), if_pos hn]
  · intro p R env auth sender recipient value expTo expVal asset
      hp hs hn h1 h2 h3 h4 h5 h6 hne
    rw [exactEvmVerify_reaches_addrs p R env auth hp hs hn]
    simp only [verifyAddrs, h1, h2, h3, h4, h5, h6]
    rw [if_pos hne]
  · intro p R env auth sender recipient value expTo expVal asset
      hp hs hn h1 h2 h3 h4 h5 h6 hto hne
    rw [exactEvmVerify_reaches_addrs p R env auth hp hs hn]
    simp only [verifyAddrs, h1, h2, h3, h4, h5, h6]
    rw [if_neg (by simp [hto]), if_pos hne]
  · intro p R env auth sender recipient value expTo expVal asset va vb
      hp hs hn h1 h2 h3 h4 h5 h6 hto hval hva hvb hout
    rw [exactEvmVerify_reaches_addrs p R env auth hp hs hn,
      verifyAddrs_reaches_time R env auth sender recipient value expTo expVal
        asset h1 h2 h3 h4 h5 h6 hto hval]
    simp only [verifyTime, hva, hvb]
    rw [if_pos hout]
  · intro p R env auth sender recipient value expTo expVal asset va vb cid nv
      hp hs hn h1 h2 h3 h4 h5 h6 hto hval hva hvb hin hpr hcid hnz hfree hlen
    rw [exactEvmVerify_reaches_addrs p R env auth hp hs hn,
      verifyAddrs_reaches_time R env auth sender recipient value expTo expVal
        asset h1 h2 h3 h4 h5 h6 hto hval,
      verifyTime_reaches_chain env auth sender va vb hva hvb hin,
      verifyChain_reaches_nonce env auth sender cid hpr hcid,
      verifyNonce_reaches_sig env auth sender nv hnz hfree,
      verifySig_wrong_length env auth sender hlen]
  · intro p R env auth sender recipient value expTo expVal asset va vb cid nv
      bs a hp hs hn h1 h2 h3 h4 h5 h6 hto hval hva hvb hin hpr hcid hnz hfree
      hlen hbs hrec hne
    rw [exactEvmVerify_reaches_addrs p R env auth hp hs hn,
      verifyAddrs_reaches_time R env auth sender recipient value expTo expVal
        asset h1 h2 h3 h4 h5 h6 hto hval,
      verifyTime_reaches_chain env auth sender va vb hva hvb hin,
      verifyChain_reaches_nonce env auth sender cid hpr hcid,
      verifyNonce_reaches_sig env auth sender nv hnz hfree,
      verifySig_recovered env auth sender bs a hlen hbs hrec,
      decide_eq_false hne]
  · intro p R env auth sender recipient value expTo expVal asset va vb cid nv
      bs hp hs hn h1 h2 h3 h4 h5 h6 hto hval hva hvb hin hpr hcid hnz hfree
      hlen hbs hrec
    rw [exactEvmVerify_reaches_addrs p R env auth hp hs hn,
      verifyAddrs_reaches_time R env auth sender recipient value expTo expVal
        asset h1 h2 h3 h4 h5 h6 hto hval,
      verifyTime_reaches_chain env auth sender va vb hva hvb hin,
      verifyChain_reaches_nonce env auth sender cid hpr hcid,
      verifyNonce_reaches_sig env auth sender nv hnz hfree,
      verifySig_recovery_failure env auth sender bs hlen hbs hrec]

/-- A payload whose inner `payload` is not a `TransferAuthorization`. -/
def cPayloadBadInner : PaymentPayload := { cPayload with payload := .str "oops" }

/-- Environment in which recovery yields a signer other than `from`. -/
def cEnvWrongSigner : VerifyEnv := { cEnv with recovered := some 999 }

set_option maxRecDepth 40000 in
/-- C2 counterexample: an inner payload that fails to parse makes
`verify` raise `InvalidPayload` — the call carries no boolean at all, so
this mismatch is not reported as `false`. -/
theorem verify_parse_raises_counterexample :
    exactEvmVerify cPayloadBadInner cReq cEnv
        = .error (.invalidPayload "Invalid authorization")
      ∧ (exactEvmVerify cPayloadBadInner cReq cEnv).toOption = none :=
  ⟨rfl, rfl⟩

set_option maxRecDepth 100000 in
/-- C2 witness: concrete instances of the parse-failure conjunct and of
the wrong-recovered-signer conjunct. -/
theorem verify_mismatch_behavior_witness :
    exactEvmVerify cPayloadBadInner cReq cEnv
        = .error (.invalidPayload "Invalid authorization")
      ∧ exactEvmVerify cPayload cReq cEnvWrongSigner = .ok false := by
  constructor
  · exact verify_mismatch_behavior.1 cPayloadBadInner cReq cEnv rfl
  · exact verify_mismatch_behavior.2.2.2.2.2.2.2.1 cPayload cReq cEnvWrongSigner
      _ _ _ _ _ _ _ _ _ _ _ _ _ rfl rfl rfl rfl rfl rfl rfl rfl rfl rfl rfl
      rfl rfl (by decide) rfl rfl rfl rfl rfl rfl rfl (by decide)

/-- `string_to_u256` never fails with `NonceUsed` (its errors are
`InvalidAmount`). -/
theorem stringToU256_ne_nonceUsed (s m : String) :
    stringToU256 s ≠ .error (.nonceUsed m) := by
  unfold stringToU256 hexU256Tail
  intro h
  repeat' split at h
  all_goals simp_all

/-- `parse_address` never fails with `NonceUsed` (its errors are
`InvalidAddress`). -/
theorem parseAddress_ne_nonceUsed (s m : String) :
    parseAddress s ≠ .error (.nonceUsed m) := by
  unfold parseAddress
  intro h
  repeat' split at h
  all_goals simp_all

/-! ## C3: when `NonceUsed` is raised -/

/-- C3 (amended): `verify` raises `NonceUsed` exactly for payloads that
pass every check BEFORE the nonce lookup — parse, scheme, network, the
six address/amount parses, recipient and value match, timestamps in
window, provider and chain id — and whose `authorizationState` reports
consumed (an RPC failure counting as consumed). The signature plays no
part: the nonce check precedes signature recovery, so `NonceUsed` is
raised even when the signature would not recover to `from`. Conversely,
`NonceUsed` is only ever raised with `authorizationState` consumed. -/
theorem verify_nonce_used_characterization :
    (∀ p R env auth sender recipient value expTo expVal asset va vb cid nv,
      transferAuthorizationFromJson p.payload = some auth →
      p.scheme = "exact" → p.network = R.network →
      parseAddress auth.from_ = .ok sender →
      parseAddress auth.to_ = .ok recipient →
      stringToU256 auth.value = .ok value →
      parseAddress R.payTo = .ok expTo →
      stringToU256 R.maxAmountRequired = .ok expVal →
      parseAddress R.asset = .ok asset →
      recipient = expTo → value = expVal →
      stringToU256 auth.validAfter = .ok va →
      stringToU256 auth.validBefore = .ok vb →
      ¬(env.now < va ∨ env.now > vb) →
      env.providerOk = true → env.chainId = some cid →
      hexDecode64 (stripAll0x auth.nonce.data) = some nv →
      env.authState.getD true = true →
      exactEvmVerify p R env = .error (.nonceUsed auth.nonce))
    ∧ (∀ p R env m, exactEvmVerify p R env = .error (.nonceUsed m) →
        env.authState.getD true = true) := by
  constructor
  · intro p R env auth sender recipient value expTo expVal asset va vb cid nv
      hp hs hn h1 h2 h3 h4 h5 h6 hto hval hva hvb hin hpr hcid hnz hused
    rw [exactEvmVerify_reaches_addrs p R env auth hp hs hn,
      verifyAddrs_reaches_time R env auth sender recipient value expTo expVal
        asset h1 h2 h3 h4 h5 h6 hto hval,
      verifyTime_reaches_chain env auth sender va vb hva hvb hin,
      verifyChain_reaches_nonce env auth sender cid hpr hcid,
      verifyNonce_used env auth sender nv hnz hused]
  · intro p R env m hv
    unfold exactEvmVerify verifyAddrs verifyTime verifyChain verifyNonce
      verifySig at hv
    repeat' split at hv
    all_goals try assumption
    all_goals first
      | injection hv with hv2
      | injection hv
    all_goals
      try (rename_i e heq; exact absurd (hv2 ▸ heq) (parseAddress_ne_nonceUsed _ _))
    all_goals
      try (rename_i e heq; exact absurd (hv2 ▸ heq) (stringToU256_ne_nonceUsed _ _))
    all_goals exact X402Error.noConfusion hv2

/-- Environment with a consumed nonce AND a signature recovering to a
signer other than `from`. -/
def cEnvUsedWrongSigner : VerifyEnv :=
  { cEnv with authState := some true, recovered := some 999 }

set_option maxRecDepth 40000 in
/-- C3 counterexample: the nonce check precedes signature verification,
so a payload whose signature does not recover to `from` still raises
`NonceUsed` when its nonce is consumed on-chain — it does not return
`false`. -/
theorem verify_nonce_before_signature_counterexample :
    exactEvmVerify cPayload cReq cEnvUsedWrongSigner
        = .error (.nonceUsed
            "0xaaaaaaaaaaaaaaaaaaaaaaaaaaaaaaaaaaaaaaaaaaaaaaaaaaaaaaaaaaaaaaaa")
      ∧ parseAddress "0x2222222222222222222222222222222222222222"
          = .ok 0x2222222222222222222222222222222222222222
      ∧ cEnvUsedWrongSigner.recovered = some 999
      ∧ (999 == 0x2222222222222222222222222222222222222222) = false :=
  ⟨rfl, rfl, rfl, rfl⟩

set_option maxRecDepth 100000 in
/-- C3 witness: a concrete payload passing every pre-nonce check whose
consumed nonce raises `NonceUsed`. -/
theorem verify_nonce_used_characterization_witness :
    exactEvmVerify cPayload cReq cEnvUsedWrongSigner
        = .error (.nonceUsed
            "0xaaaaaaaaaaaaaaaaaaaaaaaaaaaaaaaaaaaaaaaaaaaaaaaaaaaaaaaaaaaaaaaa")
      := by
  exact verify_nonce_used_characterization.1 cPayload cReq cEnvUsedWrongSigner
    _ _ _ _ _ _ _ _ _ _ _ rfl rfl rfl rfl rfl rfl rfl rfl rfl rfl rfl rfl rfl
    (by decide) rfl rfl rfl rfl

/-! ## Bounds for parsed numbers -/

/-- A hex digit's value is below 16. -/
theorem hexCharVal_lt_16 (c : Char) (d : Nat) (h : hexCharVal c = some d) :
    d < 16 := by
  unfold hexCharVal at h
  repeat' split at h
  all_goals first
    | exact Option.noConfusion h
    | (injection h with h2; omega)

/-- The hex-digit fold maps `none` to `none`. -/
theorem hexFoldl_none (cs : List Char) :
    cs.foldl (fun acc c => acc.bind fun a => (hexCharVal c).map fun d => a * 16 + d)
      none = none := by
  induction cs with
  | nil => rfl
  | cons c cs ih => exact ih

/-- The hex-digit fold is bounded by the digit count. -/
theorem hexFoldl_bound : ∀ (cs : List Char) (acc v : Nat),
    cs.foldl (fun acc c => acc.bind fun a => (hexCharVal c).map fun d => a * 16 + d)
        (some acc) = some v →
    v < (acc + 1) * 16 ^ cs.length := by
  intro cs
  induction cs with
  | nil =>
    intro acc v h
    injection h with h
    simp only [List.length_nil, pow_zero, mul_one]
    omega
  | cons c cs ih =>
    intro acc v h
    simp only [List.foldl] at h
    cases hc : hexCharVal c with
    | none =>
      rw [show ((some acc).bind fun a => (hexCharVal c).map fun d => a * 16 + d)
          = (hexCharVal c).map fun d => acc * 16 + d from rfl, hc] at h
      rw [show Option.map (fun d => acc * 16 + d) none = none from rfl,
        hexFoldl_none] at h
      exact Option.noConfusion h
    | some d =>
      rw [show ((some acc).bind fun a => (hexCharVal c).map fun d => a * 16 + d)
          = (hexCharVal c).map fun d => acc * 16 + d from rfl, hc] at h
      have hd := hexCharVal_lt_16 c d hc
      have hb := ih (acc * 16 + d) v h
      have hstep : (acc * 16 + d + 1) * 16 ^ cs.length
          ≤ ((acc + 1) * 16) * 16 ^ cs.length :=
        Nat.mul_le_mul_right _ (by omega)
      calc v < (acc * 16 + d + 1) * 16 ^ cs.length := hb
        _ ≤ ((acc + 1) * 16) * 16 ^ cs.length := hstep
        _ = (acc + 1) * 16 ^ (c :: cs).length := by
            simp only [List.length_cons, pow_succ]
            ring

/-- `hexCharsVal` of `n` digits is below `16 ^ n`. -/
theorem hexCharsVal_lt (cs : List Char) (v : Nat) (h : hexCharsVal cs = some v) :
    v < 16 ^ cs.length := by
  have hb := hexFoldl_bound cs 0 v h
  simpa using hb

/-- `U256::from_dec_str` rejects values of 256 bits or more. -/
theorem decStrToNat_lt (cs : List Char) (v : Nat) (h : decStrToNat cs = some v) :
    v < 2 ^ 256 := by
  unfold decStrToNat at h
  repeat' split at h
  all_goals first
    | exact Option.noConfusion h
    | (injection h with h2; omega)

/-- The hex branch of `string_to_u256` also stays below `2 ^ 256`. -/
theorem hexU256Tail_lt (s : String) (rest : List Char) (v : Nat)
    (h : hexU256Tail s rest = .ok v) : v < 2 ^ 256 := by
  unfold hexU256Tail at h
  repeat' split at h
  all_goals try exact Except.noConfusion h
  rename_i v' heq hlen
  injection h with h2
  subst h2
  calc v' < 16 ^ rest.length := hexCharsVal_lt rest v' heq
    _ ≤ 16 ^ 64 := Nat.pow_le_pow_right (by omega) hlen.2
    _ = 2 ^ 256 := by norm_num

/-- Every value `string_to_u256` accepts fits in 256 bits. -/
theorem stringToU256_lt (s : String) (v : Nat) (h : stringToU256 s = .ok v) :
    v < 2 ^ 256 := by
  unfold stringToU256 at h
  repeat' split at h
  all_goals first
    | exact Except.noConfusion h
    | (rename_i v' heq; injection h with h2; subst h2; exact decStrToNat_lt _ _ heq)
    | exact hexU256Tail_lt _ _ _ h

/-- `string_to_u256` parses back the decimal rendering of any 256-bit
value (`U256::to_string` round trip). -/
theorem stringToU256_natChars (n : Nat) (hn : n < 2 ^ 256) :
    stringToU256 (String.mk (natChars n)) = .ok n := by
  have hd : decStrToNat (String.mk (natChars n)).data = some n := by
    show decStrToNat (natChars n) = some n
    unfold decStrToNat
    rw [if_pos (List.all_eq_true.mpr (natChars_all_digits n)),
      digitsToNat_natChars, if_pos hn]
  unfold stringToU256
  rw [hd]

/-! ## `ExactEvm::generate_payload` (`src/schemes/exact_evm.rs`) -/

/-- `serde_json::json!` on a `TransferAuthorization` (field order as
declared, wire names `validAfter`/`validBefore`). -/
def transferAuthorizationToJson (a : TransferAuthorization) : Json :=
  .obj [("from", .str a.from_), ("to", .str a.to_), ("value", .str a.value),
        ("validAfter", .str a.validAfter), ("validBefore", .str a.validBefore),
        ("nonce", .str a.nonce), ("signature", .str a.signature)]

/-- Parsing inverts `json!` on a `TransferAuthorization`. -/
theorem transferAuthorizationFromJson_toJson (a : TransferAuthorization) :
    transferAuthorizationFromJson (transferAuthorizationToJson a) = some a := rfl

/-- Big-endian bytes of a value, fixed width (`U256::to_big_endian`,
`H256::from`). -/
def bytesBE : Nat → Nat → List Nat
  | 0, _ => []
  | w + 1, n => (n / 256 ^ w % 256) :: bytesBE w n

/-- `hex::encode`: lowercase hex of a byte list. -/
def hexEncode (bs : List Nat) : List Char :=
  bs.foldr (fun b acc => hexDigitChar (b / 16) :: hexDigitChar (b % 16) :: acc) []

/-- `format!("{:?}")` on an `Address`: `0x` and 40 fixed-width lowercase
hex digits. -/
def formatAddress (a : Nat) : String :=
  String.mk ('0' :: 'x' :: hexEncode (bytesBE 20 a))

/-- `hex::decode_to_slice` into a 32-byte buffer: exactly 64 hex
characters. -/
def hexDecodeBytes32 (cs : List Char) : Option (List Nat) :=
  if cs.length = 64 then hexDecodeBytes cs else none

/-- Environment for `ExactEvm::generate_payload`: the wallet parsed from
the private key (`none` models a parse failure), the RPC provider, the
string `generate_nonce` produced, the wall clock, and the secp256k1
signature `(r, s, v)` over the EIP-712 hash (`none` models a signing
error). -/
structure GenEnv where
  walletAddr : Option Nat
  providerOk : Bool
  chainId : Option Nat
  nonceStr : String
  now : Nat
  sig : Option (Nat × Nat × Nat)

/-- `ExactEvm::generate_payload`: parse `pay_to`, `max_amount_required`
and `asset` (in source order), parse the private key, reach the provider
and chain id, decode the generated nonce, timestamp the window
`[now, now + max_timeout_seconds]`, sign, and assemble the payload with
`x402_version: X402_VERSION`, `scheme: self.name()` (the literal
`"exact"`) and the requirements' network. -/
def exactEvmGeneratePayload (R : PaymentRequirements) (env : GenEnv) :
    Except X402Error PaymentPayload :=
  match parseAddress R.payTo with
  | .error e => .error e
  | .ok to_ =>
    match stringToU256 R.maxAmountRequired with
    | .error e => .error e
    | .ok value =>
      match parseAddress R.asset with
      | .error e => .error e
      | .ok _ =>
        match env.walletAddr with
        | none => .error (.invalidPayload "Invalid private key")
        | some from_ =>
          if env.providerOk then
            match env.chainId with
            | none => .error (.blockchainError "chain id")
            | some _ =>
              match hexDecodeBytes32 (stripAll0x env.nonceStr.data) with
              | none => .error (.invalidPayload "Invalid nonce")
              | some nbytes =>
                match env.sig with
                | none => .error (.signatureError "signing failed")
                | some rsv =>
                  .ok { x402Version := 1, scheme := "exact",
                        network := R.network,
                        payload := transferAuthorizationToJson
                          { from_ := formatAddress from_,
                            to_ := formatAddress to_,
                            value := String.mk (natChars value),
                            validAfter := String.mk (natChars env.now),
                            validBefore := String.mk
                              (natChars (env.now + R.maxTimeoutSeconds)),
                            nonce := String.mk
                              ('0' :: 'x' :: hexEncode nbytes),
                            signature := String.mk ('0' :: 'x' ::
                              hexEncode (bytesBE 32 rsv.1 ++ bytesBE 32 rsv.2.1
                                ++ [rsv.2.2 % 256])) } }
          else .error (.urlParseError "invalid rpc url")

/-! ## C5: what `generate_payload` produces -/

/-- C5 (amended): a successfully generated payload has `x402Version = 1`,
`scheme = "exact"` (the scheme's own name — `R.scheme` is never read),
the requirements' network, an inner authorization whose `value` is the
decimal rendering of the parsed `maxAmountRequired` (and parses back to
it), and whose `to` is the canonical format of the address parsed from
`R.payTo`. -/
theorem generate_payload_fields (R : PaymentRequirements) (env : GenEnv)
    (p : PaymentPayload) (h : exactEvmGeneratePayload R env = .ok p) :
    p.x402Version = 1 ∧ p.scheme = "exact" ∧ p.network = R.network
      ∧ ∃ auth, transferAuthorizationFromJson p.payload = some auth
          ∧ (∃ V, stringToU256 R.maxAmountRequired = .ok V
              ∧ auth.value = String.mk (natChars V)
              ∧ stringToU256 auth.value = .ok V)
          ∧ (∃ a, parseAddress R.payTo = .ok a ∧ auth.to_ = formatAddress a) := by
  unfold exactEvmGeneratePayload at h
  split at h
  · exact absurd h (by simp)
  rename_i to_ hto
  split at h
  · exact absurd h (by simp)
  rename_i value hvalue
  split at h
  · exact absurd h (by simp)
  rename_i asset hasset
  split at h
  · exact absurd h (by simp)
  rename_i from_ hfrom
  by_cases hprov : env.providerOk
  case neg =>
    rw [if_neg hprov] at h
    exact absurd h (by simp)
  rw [if_pos hprov] at h
  split at h
  · exact absurd h (by simp)
  rename_i cid hcid
  split at h
  · exact absurd h (by simp)
  rename_i nbytes hnb
  split at h
  · exact absurd h (by simp)
  rename_i rsv hsig
  injection h with h2
  subst h2
  refine ⟨rfl, rfl, rfl, _, transferAuthorizationFromJson_toJson _,
    ⟨value, hvalue, rfl, ?_⟩, ⟨to_, hto, rfl⟩⟩
  exact stringToU256_natChars value (stringToU256_lt _ _ hvalue)

/-- A concrete environment in which generation succeeds. -/
def cGenEnv : GenEnv :=
  { walletAddr := some 0x2222222222222222222222222222222222222222,
    providerOk := true, chainId := some 8453,
    nonceStr := "0xaaaaaaaaaaaaaaaaaaaaaaaaaaaaaaaaaaaaaaaaaaaaaaaaaaaaaaaaaaaaaaaa",
    now := 1000, sig := some (1, 2, 27) }

set_option maxRecDepth 40000 in
/-- C5 counterexample: with requirements advertising scheme `"upto"`,
the generated payload still carries scheme `"exact"` — `generate_payload`
hard-codes `self.name()` and never reads `R.scheme`. -/
theorem generate_scheme_counterexample :
    (exactEvmGeneratePayload cReqUpto cGenEnv).map PaymentPayload.scheme
        = .ok "exact"
      ∧ cReqUpto.scheme = "upto" := ⟨rfl, rfl⟩

set_option maxRecDepth 40000 in
/-- C5 witness: a concrete successful generation with all the guaranteed
field equalities. -/
theorem generate_payload_fields_witness :
    ∃ p, exactEvmGeneratePayload cReq cGenEnv = .ok p
      ∧ (p.x402Version = 1 ∧ p.scheme = "exact" ∧ p.network = cReq.network
        ∧ ∃ auth, transferAuthorizationFromJson p.payload = some auth
            ∧ (∃ V, stringToU256 cReq.maxAmountRequired = .ok V
                ∧ auth.value = String.mk (natChars V)
                ∧ stringToU256 auth.value = .ok V)
            ∧ (∃ a, parseAddress cReq.payTo = .ok a
                ∧ auth.to_ = formatAddress a)) :=
  ⟨_, rfl, generate_payload_fields cReq cGenEnv _ rfl⟩

/-! ## The facilitator (`src/facilitator.rs`) -/

/-- `FacilitatorConfig`'s support list; the RPC url, key and nonce store
are modelled as separate arguments. -/
structure FacilitatorConfig where
  supported : List (String × String)

/-- `FacilitatorConfig::is_supported`. -/
def isSupported (cfg : FacilitatorConfig) (scheme network : String) : Bool :=
  cfg.supported.any fun sn => sn.1 == scheme && sn.2 == network

/-- `HashSet::insert` on the used-nonce set (modelled as a duplicate-free
list). -/
def insertNonce (nonces : List String) (n : String) : List String :=
  if nonces.contains n then nonces else n :: nonces

/-- Environment for `ExactEvm::settle`: facilitator key parsing, the RPC
provider, and the outcome of `transferWithAuthorization` submission and
receipt. -/
structure SettleEnv where
  facilitatorKeyOk : Bool
  providerOk : Bool
  chainId : Option Nat
  sendOk : Bool
  receipt : Option (Option String)

/-- `settle` after the signature bytes are in hand: parse addresses,
value, asset, nonce and timestamps, parse the facilitator key
(`ConfigError` on failure), reach the provider, then submit
`transferWithAuthorization` and await the receipt. -/
def settleAfterSig (auth : TransferAuthorization) (R : PaymentRequirements)
    (env : SettleEnv) : Except X402Error String :=
  match parseAddress auth.from_ with
  | .error e => .error e
  | .ok _ =>
    match parseAddress auth.to_ with
    | .error e => .error e
    | .ok _ =>
      match stringToU256 auth.value with
      | .error e => .error e
      | .ok _ =>
        match parseAddress R.asset with
        | .error e => .error e
        | .ok _ =>
          match hexDecode64 (stripAll0x auth.nonce.data) with
          | none => .error (.invalidPayload "Invalid nonce")
          | some _ =>
            match stringToU256 auth.validAfter with
            | .error e => .error e
            | .ok _ =>
              match stringToU256 auth.validBefore with
              | .error e => .error e
              | .ok _ =>
                if env.facilitatorKeyOk then
                  if env.providerOk then
                    match env.chainId with
                    | none => .error (.blockchainError "chain id")
                    | some _ =>
                      if env.sendOk then
                        match env.receipt with
                        | none => .error (.settlementError "Receipt error")
                        | some none => .error (.settlementError "No receipt")
                        | some (some h) => .ok h
                      else .error (.settlementError "Transaction failed")
                  else .error (.urlParseError "invalid rpc url")
                else .error (.configError "Invalid facilitator key")

/-- `ExactEvm::settle`: parse the authorization and hex-decode the
signature; `none` models the Rust panic when fewer than 65 signature
bytes are sliced (`sig_bytes[0..32]` / `[32..64]` / `[64]`). -/
def exactEvmSettle (payload : PaymentPayload) (R : PaymentRequirements)
    (env : SettleEnv) : Option (Except X402Error String) :=
  match transferAuthorizationFromJson payload.payload with
  | none => some (.error (.invalidPayload "Invalid authorization"))
  | some auth =>
    match hexDecodeBytes (stripAll0x auth.signature.data) with
    | none => some (.error (.invalidPayload "Invalid signature"))
    | some sigBytes =>
      if sigBytes.length < 65 then none
      else some (settleAfterSig auth R env)

/-- `handle_verify` after the header decoded: supported kinds, scheme
dispatch, `scheme.verify`, then the advisory local nonce check (the lock
is only read). The pair's second component is the used-nonce set after
the call. -/
def handleVerifyDecoded (payload : PaymentPayload) (R : PaymentRequirements)
    (cfg : FacilitatorConfig) (env : VerifyEnv) (nonces : List String) :
    VerificationResponse × List String :=
  if isSupported cfg payload.scheme payload.network then
    if payload.scheme = "exact" then
      match exactEvmVerify payload R env with
      | .ok true =>
        match transferAuthorizationFromJson payload.payload with
        | some auth =>
          if nonces.contains auth.nonce then
            (⟨false, some "Nonce already used"⟩, nonces)
          else (⟨true, none⟩, nonces)
        | none => (⟨true, none⟩, nonces)
      | .ok false => (⟨false, some "Verification failed"⟩, nonces)
      | .error e => (⟨false, some (errToString e)⟩, nonces)
    else (⟨false, some ("Unsupported scheme: " ++ payload.scheme)⟩, nonces)
  else
    (⟨false, some ("Unsupported scheme/network: " ++ payload.scheme ++ "/"
      ++ payload.network)⟩, nonces)

/-- `handle_verify`. -/
def handleVerify (req : VerificationRequest) (cfg : FacilitatorConfig)
    (env : VerifyEnv) (nonces : List String) :
    VerificationResponse × List String :=
  match decodePaymentHeader req.paymentHeader with
  | .error e =>
    (⟨false, some ("Invalid payment header: " ++ errToString e)⟩, nonces)
  | .ok payload => handleVerifyDecoded payload req.paymentRequirements cfg env nonces

/-- With a decodable header, `handle_verify` continues past decoding. -/
theorem handleVerify_of_decode (req : VerificationRequest)
    (cfg : FacilitatorConfig) (env : VerifyEnv) (nonces : List String)
    (payload : PaymentPayload)
    (h : decodePaymentHeader req.paymentHeader = .ok payload) :
    handleVerify req cfg env nonces
      = handleVerifyDecoded payload req.paymentRequirements cfg env nonces := by
  unfold handleVerify
  rw [h]

/-- The `SettlementResponse` built from `scheme.settle`'s outcome. -/
def settleResponseOf : Except X402Error String → SettlementResponse
  | .ok txh => ⟨txh, none, none⟩
  | .error e => ⟨"", none, some (errToString e)⟩

/-- `handle_settle` after the header decoded again: dispatch the scheme,
insert the nonce into the used-nonce set when the inner authorization
parses, and only then call `scheme.settle` — the insertion precedes the
submission attempt, whatever its outcome. `none` models the panic
propagating out of `ExactEvm::settle`. -/
def handleSettleDecoded (payload : PaymentPayload) (R : PaymentRequirements)
    (senv : SettleEnv) (nonces : List String) :
    Option (Except X402Error (SettlementResponse × List String)) :=
  if payload.scheme = "exact" then
    match exactEvmSettle payload R senv with
    | none => none
    | some r => some (.ok (settleResponseOf r,
        match transferAuthorizationFromJson payload.payload with
        | some auth => insertNonce nonces auth.nonce
        | none => nonces))
  else
    some (.ok (⟨"", none, some ("Unsupported scheme: " ++ payload.scheme)⟩,
      nonces))

/-- `handle_settle`: run the `/verify` logic; on an invalid payment,
return the reason with an empty hash; otherwise decode the header again
(`?` propagates failures) and continue. -/
def handleSettle (req : SettlementRequest) (cfg : FacilitatorConfig)
    (env : VerifyEnv) (senv : SettleEnv) (nonces : List String) :
    Option (Except X402Error (SettlementResponse × List String)) :=
  if (handleVerify ⟨req.paymentHeader, req.paymentRequirements⟩ cfg env
      nonces).1.isValid then
    match decodePaymentHeader req.paymentHeader with
    | .error e => some (.error e)
    | .ok payload => handleSettleDecoded payload req.paymentRequirements senv nonces
  else
    some (.ok (⟨"", none,
      (handleVerify ⟨req.paymentHeader, req.paymentRequirements⟩ cfg env
        nonces).1.invalidReason⟩, nonces))

/-- An invalid payment short-circuits `handle_settle` with the verify
reason and an untouched nonce set. -/
theorem handleSettle_invalid (req : SettlementRequest) (cfg : FacilitatorConfig)
    (env : VerifyEnv) (senv : SettleEnv) (nonces : List String)
    (h : (handleVerify ⟨req.paymentHeader, req.paymentRequirements⟩ cfg env
      nonces).1.isValid = false) :
    handleSettle req cfg env senv nonces
      = some (.ok (⟨"", none,
          (handleVerify ⟨req.paymentHeader, req.paymentRequirements⟩ cfg env
            nonces).1.invalidReason⟩, nonces)) := by
  unfold handleSettle
  rw [if_neg (by simp [h])]

/-- A valid payment with a decodable header continues past decoding. -/
theorem handleSettle_of_decode (req : SettlementRequest)
    (cfg : FacilitatorConfig) (env : VerifyEnv) (senv : SettleEnv)
    (nonces : List String) (payload : PaymentPayload)
    (hval : (handleVerify ⟨req.paymentHeader, req.paymentRequirements⟩ cfg env
      nonces).1.isValid = true)
    (hdec : decodePaymentHeader req.paymentHeader = .ok payload) :
    handleSettle req cfg env senv nonces
      = handleSettleDecoded payload req.paymentRequirements senv nonces := by
  unfold handleSettle
  rw [if_pos hval, hdec]

/-- Whether a `settle` outcome is a submitted-and-confirmed transaction. -/
def settleSucceeded : Option (Except X402Error String) → Bool
  | some (.ok _) => true
  | _ => false

/-! ## Concrete facilitator fixtures -/

/-- The nonce string of `cAuthJson`. -/
def cNonceStr : String :=
  "0xaaaaaaaaaaaaaaaaaaaaaaaaaaaaaaaaaaaaaaaaaaaaaaaaaaaaaaaaaaaaaaaa"

/-- A facilitator supporting (exact, 8453). -/
def cCfg : FacilitatorConfig := ⟨[("exact", "8453")]⟩

/-- A settlement request carrying the encoded `cPayload`. -/
def cSettleReq : SettlementRequest := ⟨encodePaymentHeader cPayload, cReq⟩

/-- A settlement environment whose facilitator key does not parse: the
settlement fails strictly before any transaction is submitted. -/
def cSettleEnvBadKey : SettleEnv :=
  { facilitatorKeyOk := false, providerOk := true, chainId := some 8453,
    sendOk := false, receipt := none }

/-- The fixture header decodes back to `cPayload`. -/
theorem cSettleReq_decode :
    decodePaymentHeader cSettleReq.paymentHeader = .ok cPayload :=
  (decodePaymentHeader_of_b64 _ _ (base64Decode_encodeHeader cPayload)).trans
    ((decodeStep2_of_utf8 _ _ (utf8Decode_serialized cPayload)).trans
      ((decodeStep3_of_parse _ _ (jsonParse_serialized cPayload)).trans
        (decodeStep4_of_fromJson _ _
          (paymentPayloadFromJson_toJson cPayload (by decide)))))

set_option maxRecDepth 40000 in
/-- The fixture request passes the facilitator's verification. -/
theorem cSettleReq_verify_valid :
    (handleVerify ⟨cSettleReq.paymentHeader, cSettleReq.paymentRequirements⟩
      cCfg cEnv []).1.isValid = true := by
  rw [handleVerify_of_decode _ cCfg cEnv [] cPayload cSettleReq_decode]
  rfl

set_option maxRecDepth 40000 in
/-- Running `handle_settle` on the fixture with the unparsable
facilitator key: the response carries `ConfigError` (no transaction was
ever submitted) yet the nonce is in the final used-nonce set. -/
theorem cSettle_run :
    handleSettle cSettleReq cCfg cEnv cSettleEnvBadKey []
      = some (.ok (⟨"", none,
          some (errToString (.configError "Invalid facilitator key"))⟩,
          [cNonceStr])) := by
  rw [handleSettle_of_decode cSettleReq cCfg cEnv cSettleEnvBadKey [] cPayload
    cSettleReq_verify_valid cSettleReq_decode]
  rfl

/-! ## C4: when the nonce is committed -/

/-- C4 (amended): `handle_settle` leaves the used-nonce set unchanged
when verification fails, but once verification succeeds and the scheme
dispatches, it inserts the nonce BEFORE calling `scheme.settle`: the
final set contains the nonce whatever the settlement outcome — in
particular when the facilitator key fails to parse, a failure that
occurs strictly before any transaction could be submitted (with a bad
key `settle` never reports a submitted transaction). -/
theorem handle_settle_nonce_insertion :
    (∀ req cfg env senv nonces,
      (handleVerify ⟨req.paymentHeader, req.paymentRequirements⟩ cfg env
        nonces).1.isValid = false →
      handleSettle req cfg env senv nonces
        = some (.ok (⟨"", none,
            (handleVerify ⟨req.paymentHeader, req.paymentRequirements⟩ cfg env
              nonces).1.invalidReason⟩, nonces)))
    ∧ (∀ req cfg env senv nonces payload auth r,
        (handleVerify ⟨req.paymentHeader, req.paymentRequirements⟩ cfg env
          nonces).1.isValid = true →
        decodePaymentHeader req.paymentHeader = .ok payload →
        payload.scheme = "exact" →
        transferAuthorizationFromJson payload.payload = some auth →
        exactEvmSettle payload req.paymentRequirements senv = some r →
        handleSettle req cfg env senv nonces
          = some (.ok (settleResponseOf r, insertNonce nonces auth.nonce)))
    ∧ (∀ payload R senv, senv.facilitatorKeyOk = false →
        settleSucceeded (exactEvmSettle payload R senv) = false) := by
  refine ⟨?_, ?_, ?_⟩
  · intro req cfg env senv nonces h
    exact handleSettle_invalid req cfg env senv nonces h
  · intro req cfg env senv nonces payload auth r hval hdec hsch hauth hset
    rw [handleSettle_of_decode req cfg env senv nonces payload hval hdec]
    unfold handleSettleDecoded
    rw [if_pos hsch, hset, hauth]
  · intro payload R senv hk
    unfold exactEvmSettle settleAfterSig
    repeat' split
    all_goals try rfl
    all_goals simp_all [settleSucceeded]

set_option maxRecDepth 40000 in
/-- C4 counterexample: the fixture settlement fails before any
transaction is submitted (the facilitator key does not parse, and with a
bad key `settle` never reports success), yet the request's nonce sits in
the final used-nonce set. -/
theorem settle_commits_nonce_before_submission_counterexample :
    handleSettle cSettleReq cCfg cEnv cSettleEnvBadKey []
        = some (.ok (⟨"", none,
            some (errToString (.configError "Invalid facilitator key"))⟩,
            [cNonceStr]))
      ∧ settleSucceeded (exactEvmSettle cPayload cReq cSettleEnvBadKey) = false
      ∧ [cNonceStr].contains cNonceStr = true :=
  ⟨cSettle_run, rfl, rfl⟩

set_option maxRecDepth 40000 in
/-- C4 witness: the insertion conjunct at the fixture settlement. -/
theorem handle_settle_nonce_insertion_witness :
    handleSettle cSettleReq cCfg cEnv cSettleEnvBadKey []
      = some (.ok (settleResponseOf
          (.error (.configError "Invalid facilitator key")),
          insertNonce [] cNonceStr)) := by
  exact handle_settle_nonce_insertion.2.1 cSettleReq cCfg cEnv cSettleEnvBadKey
    [] cPayload _ _ cSettleReq_verify_valid cSettleReq_decode rfl rfl rfl

/-! ## C10: `handle_verify` does not write the nonce set -/

/-- C10: `handle_verify` always returns the used-nonce set unchanged (it
takes the write lock but only calls `contains`); and whenever
`handle_settle` returns a response, the final set is either unchanged or
the set with the decoded request's nonce inserted — nonce insertion
happens only in `handle_settle`. -/
theorem handle_verify_preserves_nonces :
    (∀ req cfg env nonces, (handleVerify req cfg env nonces).2 = nonces)
    ∧ (∀ req cfg env senv nonces out,
        handleSettle req cfg env senv nonces = some (.ok out) →
        out.2 = nonces ∨ ∃ payload auth,
          decodePaymentHeader req.paymentHeader = .ok payload
            ∧ transferAuthorizationFromJson payload.payload = some auth
            ∧ out.2 = insertNonce nonces auth.nonce) := by
  constructor
  · intro req cfg env nonces
    unfold handleVerify handleVerifyDecoded
    repeat' split
    all_goals rfl
  · intro req cfg env senv nonces out h
    by_cases hval : (handleVerify ⟨req.paymentHeader, req.paymentRequirements⟩
      cfg env nonces).1.isValid = true
    case neg =>
      rw [handleSettle_invalid req cfg env senv nonces
        (by simpa using hval)] at h
      injection h with h2
      injection h2 with h3
      exact Or.inl (by rw [← h3])
    cases hdec : decodePaymentHeader req.paymentHeader with
    | error e =>
      unfold handleSettle at h
      rw [if_pos hval, hdec] at h
      injection h with h2
      exact Except.noConfusion h2
    | ok payload =>
      rw [handleSettle_of_decode req cfg env senv nonces payload hval hdec] at h
      unfold handleSettleDecoded at h
      by_cases hsch : payload.scheme = "exact"
      case neg =>
        rw [if_neg hsch] at h
        injection h with h2
        injection h2 with h3
        exact Or.inl (by rw [← h3])
      rw [if_pos hsch] at h
      cases hset : exactEvmSettle payload req.paymentRequirements senv with
      | none =>
        rw [hset] at h
        exact Option.noConfusion h
      | some r =>
        rw [hset] at h
        cases hauth : transferAuthorizationFromJson payload.payload with
        | none =>
          rw [hauth] at h
          injection h with h2
          injection h2 with h3
          exact Or.inl (by rw [← h3])
        | some auth =>
          rw [hauth] at h
          injection h with h2
          injection h2 with h3
          exact Or.inr ⟨payload, auth, rfl, hauth, by rw [← h3]⟩

set_option maxRecDepth 40000 in
/-- C10 witness: the frame property at a concrete verification, and the
settlement conjunct at the fixture settlement. -/
theorem handle_verify_preserves_nonces_witness :
    (handleVerify ⟨cSettleReq.paymentHeader, cSettleReq.paymentRequirements⟩
      cCfg cEnv ["n"]).2 = ["n"]
    ∧ (((⟨"", none,
          some (errToString (.configError "Invalid facilitator key"))⟩,
          [cNonceStr]) : SettlementResponse × List String).2 = []
        ∨ ∃ payload auth,
            decodePaymentHeader cSettleReq.paymentHeader = .ok payload
              ∧ transferAuthorizationFromJson payload.payload = some auth
              ∧ (((⟨"", none,
                  some (errToString (.configError "Invalid facilitator key"))⟩,
                  [cNonceStr]) : SettlementResponse × List String)).2
                = insertNonce [] auth.nonce) :=
  ⟨handle_verify_preserves_nonces.1 _ cCfg cEnv ["n"],
   handle_verify_preserves_nonces.2 cSettleReq cCfg cEnv cSettleEnvBadKey [] _
     cSettle_run⟩

/-! ## C6: `x402Version` -/

/-- Collecting the per-config `to_requirements` results
(`Result<Vec<_>> = configs.values().map(...).collect()`). -/
def collectExcept : List (Except X402Error PaymentRequirements) →
    Except X402Error (List PaymentRequirements)
  | [] => .ok []
  | x :: xs =>
    match x with
    | .error e => .error e
    | .ok r =>
      match collectExcept xs with
      | .error e => .error e
      | .ok rs => .ok (r :: rs)

/-- `create_payment_required_response` (`src/server.rs`), parameterized
by the already-computed `to_requirements` outcome of each configuration
(their dollar-to-token float arithmetic is outside the model). -/
def createPaymentRequiredResponse
    (rs : List (Except X402Error PaymentRequirements)) :
    Except X402Error PaymentRequiredResponse :=
  match collectExcept rs with
  | .error e => .error e
  | .ok accepts => .ok ⟨1, accepts, none⟩

/-- C6 (amended): every payload `generate_payload` produces and every
`PaymentRequiredResponse` the server helper builds carries
`x402Version = 1`; but the verification path never reads `x402Version`:
`ExactEvm::verify` is invariant under changing it, so a payload with any
other version is NOT reported invalid. -/
theorem x402_version_one_everywhere :
    (∀ R env p, exactEvmGeneratePayload R env = .ok p → p.x402Version = 1)
    ∧ (∀ rs resp, createPaymentRequiredResponse rs = .ok resp →
        resp.x402Version = 1)
    ∧ (∀ p R env v, exactEvmVerify { p with x402Version := v } R env
        = exactEvmVerify p R env) := by
  refine ⟨?_, ?_, ?_⟩
  · intro R env p h
    unfold exactEvmGeneratePayload at h
    repeat' split at h
    all_goals first
      | exact Except.noConfusion h
      | (injection h with h2; rw [← h2])
  · intro rs resp h
    unfold createPaymentRequiredResponse at h
    repeat' split at h
    all_goals first
      | exact Except.noConfusion h
      | (injection h with h2; rw [← h2])
  · intro p R env v
    cases p
    rfl

/-- `cPayload` with a version the protocol does not define. -/
def cPayloadV2 : PaymentPayload := { cPayload with x402Version := 2 }

set_option maxRecDepth 40000 in
/-- C6 counterexample: the facilitator's verification path accepts a
payload whose `x402Version` is 2 — neither `handle_verify` nor
`ExactEvm::verify` ever reads the version field. -/
theorem facilitator_accepts_wrong_version_counterexample :
    handleVerify ⟨encodePaymentHeader cPayloadV2, cReq⟩ cCfg cEnv []
        = (⟨true, none⟩, [])
      ∧ cPayloadV2.x402Version = 2 := by
  refine ⟨?_, rfl⟩
  have hdec : decodePaymentHeader (encodePaymentHeader cPayloadV2)
      = .ok cPayloadV2 :=
    (decodePaymentHeader_of_b64 _ _ (base64Decode_encodeHeader cPayloadV2)).trans
      ((decodeStep2_of_utf8 _ _ (utf8Decode_serialized cPayloadV2)).trans
        ((decodeStep3_of_parse _ _ (jsonParse_serialized cPayloadV2)).trans
          (decodeStep4_of_fromJson _ _
            (paymentPayloadFromJson_toJson cPayloadV2 (by decide)))))
  rw [handleVerify_of_decode _ cCfg cEnv [] cPayloadV2 hdec]
  rfl

set_option maxRecDepth 40000 in
/-- C6 witness: concrete instances of all three conjuncts. -/
theorem x402_version_one_everywhere_witness :
    (∃ p, exactEvmGeneratePayload cReq cGenEnv = .ok p ∧ p.x402Version = 1)
      ∧ (∃ resp, createPaymentRequiredResponse [.ok cReq] = .ok resp
          ∧ resp.x402Version = 1)
      ∧ exactEvmVerify { cPayload with x402Version := 5 } cReq cEnv
          = exactEvmVerify cPayload cReq cEnv :=
  ⟨⟨_, rfl, x402_version_one_everywhere.1 cReq cGenEnv _ rfl⟩,
   ⟨_, rfl, x402_version_one_everywhere.2.1 [.ok cReq] _ rfl⟩,
   x402_version_one_everywhere.2.2 cPayload cReq cEnv 5⟩

/-! ## C9: the client's requirement selection (`src/client.rs`) -/

/-- `X402ClientConfig`'s preference fields. -/
structure X402ClientConfig where
  preferredScheme : Option String
  preferredNetwork : Option String

/-- The first `retain` of `select_requirement`: keep entries matching the
preferred scheme when one is set. -/
def retainScheme (cands : List PaymentRequirements) (cfg : X402ClientConfig) :
    List PaymentRequirements :=
  match cfg.preferredScheme with
  | some scheme => cands.filter fun r => r.scheme == scheme
  | none => cands

/-- The second `retain`: keep entries matching the preferred network when
one is set. -/
def retainNetwork (cands : List PaymentRequirements) (cfg : X402ClientConfig) :
    List PaymentRequirements :=
  match cfg.preferredNetwork with
  | some network => cands.filter fun r => r.network == network
  | none => cands

/-- `select_requirement`: the two retains in order, then the first
survivor, or `NoSuitableRequirement`. -/
def selectRequirement (resp : PaymentRequiredResponse)
    (cfg : X402ClientConfig) : Except X402Error PaymentRequirements :=
  match (retainNetwork (retainScheme resp.accepts cfg) cfg).head? with
  | some r => .ok r
  | none => .error .noSuitableRequirement

/-- An entry survives both retains iff it matches both set preferences. -/
def matchesPrefs (cfg : X402ClientConfig) (r : PaymentRequirements) : Bool :=
  (match cfg.preferredScheme with
    | some s => r.scheme == s
    | none => true)
  && (match cfg.preferredNetwork with
    | some n => r.network == n
    | none => true)

/-- Two filters compose into a conjunctive filter. -/
theorem filter_filter_bool {α : Type} (p q : α → Bool) (l : List α) :
    (l.filter p).filter q = l.filter fun a => p a && q a := by
  induction l with
  | nil => rfl
  | cons a l ih =>
    by_cases hp : p a <;> by_cases hq : q a <;>
      simp [List.filter_cons, hp, hq, ih]

/-- The two sequential retains equal one filter by `matchesPrefs`. -/
theorem retain_eq_filter (l : List PaymentRequirements)
    (cfg : X402ClientConfig) :
    retainNetwork (retainScheme l cfg) cfg = l.filter (matchesPrefs cfg) := by
  cases hs : cfg.preferredScheme <;> cases hn : cfg.preferredNetwork
  · have hm : matchesPrefs cfg = fun _ => true := by
      funext r
      simp [matchesPrefs, hs, hn]
    simp [retainScheme, retainNetwork, hs, hn, hm]
  · rename_i n
    have hm : matchesPrefs cfg = fun r => r.network == n := by
      funext r
      simp [matchesPrefs, hs, hn]
    simp [retainScheme, retainNetwork, hs, hn, hm]
  · rename_i s
    have hm : matchesPrefs cfg = fun r => r.scheme == s := by
      funext r
      simp [matchesPrefs, hs, hn]
    simp [retainScheme, retainNetwork, hs, hn, hm]
  · rename_i s n
    have hm : matchesPrefs cfg = fun r => r.scheme == s && (r.network == n) := by
      funext r
      simp [matchesPrefs, hs, hn]
    simp [retainScheme, retainNetwork, hs, hn, hm, filter_filter_bool]
    exact List.filter_congr fun a ha => by rw [Bool.and_comm]

/-- C9: `select_requirement` keeps exactly the `accepts` entries whose
scheme matches the preferred scheme (when set) and whose network matches
the preferred network (when set), returns the first survivor in list
order, and returns `NoSuitableRequirement` when none survives — in
particular whenever `accepts` is empty. -/
theorem select_requirement_spec (resp : PaymentRequiredResponse)
    (cfg : X402ClientConfig) :
    (selectRequirement resp cfg
      = match (resp.accepts.filter (matchesPrefs cfg)).head? with
        | some r => .ok r
        | none => .error .noSuitableRequirement)
    ∧ (resp.accepts = [] →
        selectRequirement resp cfg = .error .noSuitableRequirement) := by
  constructor
  · unfold selectRequirement
    rw [retain_eq_filter resp.accepts cfg]
  · intro he
    unfold selectRequirement
    rw [retain_eq_filter resp.accepts cfg, he]
    rfl

/-- C9 witness: selection over concrete offers — the empty list is
rejected, and with offers `[upto, exact]` and preference `exact`/`8453`
the exact entry is chosen. -/
theorem select_requirement_spec_witness :
    selectRequirement ⟨1, [], none⟩ ⟨some "exact", some "8453"⟩
        = .error .noSuitableRequirement
      ∧ selectRequirement ⟨1, [cReqUpto, cReq], none⟩
          ⟨some "exact", some "8453"⟩ = .ok cReq := by
  constructor
  · exact (select_requirement_spec ⟨1, [], none⟩
      ⟨some "exact", some "8453"⟩).2 rfl
  · have h := (select_requirement_spec ⟨1, [cReqUpto, cReq], none⟩
      ⟨some "exact", some "8453"⟩).1
    rw [h]
    rfl

end X402
